import Mathlib

/-!
Verification development for the opencubes polycube enumerator.

The Python sources are shallowly embedded: a numpy 3-dimensional int8
array is modelled as a Grid, a record of the three dimensions together
with a total cell function on integer coordinates (numpy views such as
rot90 results are index remappings, which this representation captures
exactly).  Byte strings (polycube identifiers) are lists of naturals,
each entry a byte value.  Python exceptions are modelled with Option or
Except results.
-/

set_option maxHeartbeats 1000000
set_option linter.unnecessarySeqFocus false
set_option linter.unreachableTactic false
set_option linter.unusedTactic false

/-- Model of a numpy 3-dimensional array: dimensions sx, sy, sz and a
total cell function.  Only the values at coordinates inside the box
0 <= x < sx, 0 <= y < sy, 0 <= z < sz are meaningful; constructions
that numpy materialises (pad, boolean indexing, unpackbits) define the
function by an explicit in-bounds guard. -/
@[ext] structure Grid where
  sx : Nat
  sy : Nat
  sz : Nat
  cell : Int → Int → Int → Nat

/-- Equality of numpy arrays: same shape and same entries at every
in-bounds coordinate. -/
def gridEq (g h : Grid) : Prop :=
  g.sx = h.sx ∧ g.sy = h.sy ∧ g.sz = h.sz ∧
  ∀ x < g.sx, ∀ y < g.sy, ∀ z < g.sz,
    g.cell (Int.ofNat x) (Int.ofNat y) (Int.ofNat z) =
      h.cell (Int.ofNat x) (Int.ofNat y) (Int.ofNat z)

instance (g h : Grid) : Decidable (gridEq g h) := by
  unfold gridEq
  exact inferInstance

/-- Quarter turn in the plane of axes 1 and 2, matching
numpy rot90 with axes equal to the pair 1 2: the result is the
transpose of the flip along axis 2, so the entry of the result at
x y z is the entry of the input at x, z, sz - 1 - y. -/
def rot12 (g : Grid) : Grid :=
  ⟨g.sx, g.sz, g.sy, fun x y z => g.cell x z ((g.sz : Int) - 1 - y)⟩

/-- Quarter turn in the plane of axes 0 and 2, matching numpy rot90
with axes equal to the pair 0 2. -/
def rot02 (g : Grid) : Grid :=
  ⟨g.sz, g.sy, g.sx, fun x y z => g.cell z y ((g.sz : Int) - 1 - x)⟩

/-- Quarter turn in the plane of axes 0 and 1, matching numpy rot90
with axes equal to the pair 0 1. -/
def rot01 (g : Grid) : Grid :=
  ⟨g.sy, g.sx, g.sz, fun x y z => g.cell y ((g.sy : Int) - 1 - x) z⟩

/-- Model of the helper single_axis_rotation of rotation.py: the four
rotations of the grid in the given plane (numpy rot90 with k equal to
0, 1, 2, 3). -/
def single_axis_rotation (rot : Grid → Grid) (g : Grid) : List Grid :=
  (List.range 4).map (fun i => rot^[i] g)

/-- Model of all_rotations of rotation.py: the 24 proper rotations of
a grid, produced exactly in the source order (rot90 with a negative k
equals three quarter turns). -/
def all_rotations (g : Grid) : List Grid :=
  single_axis_rotation rot12 g ++
  single_axis_rotation rot12 (rot02 (rot02 g)) ++
  single_axis_rotation rot01 (rot02 g) ++
  single_axis_rotation rot01 (rot02 (rot02 (rot02 g))) ++
  single_axis_rotation rot02 (rot01 g) ++
  single_axis_rotation rot02 (rot01 (rot01 (rot01 g)))

/-- Bit value of an array entry: numpy packbits sets a bit exactly when
the entry is nonzero. -/
def toBit (v : Nat) : Nat := if v ≠ 0 then 1 else 0

/-- Little-endian byte assembled from at most eight bit-source values:
the first value becomes the least significant bit. -/
def byteOf (l : List Nat) : Nat :=
  l.foldr (fun v acc => toBit v + 2 * acc) 0

/-- Model of numpy packbits with little-endian bit order: the flat list
of entries is cut into groups of eight, each becoming one byte, the
last group zero-padded. -/
def packbits : List Nat → List Nat
  | [] => []
  | b0 :: b1 :: b2 :: b3 :: b4 :: b5 :: b6 :: b7 :: rest =>
      byteOf [b0, b1, b2, b3, b4, b5, b6, b7] :: packbits rest
  | [b0] => [byteOf [b0]]
  | [b0, b1] => [byteOf [b0, b1]]
  | [b0, b1, b2] => [byteOf [b0, b1, b2]]
  | [b0, b1, b2, b3] => [byteOf [b0, b1, b2, b3]]
  | [b0, b1, b2, b3, b4] => [byteOf [b0, b1, b2, b3, b4]]
  | [b0, b1, b2, b3, b4, b5] => [byteOf [b0, b1, b2, b3, b4, b5]]
  | [b0, b1, b2, b3, b4, b5, b6] => [byteOf [b0, b1, b2, b3, b4, b5, b6]]

/-- Eight bits of a byte, least significant first, as produced by
numpy unpackbits with little-endian bit order. -/
def bitsOfByte (b : Nat) : List Nat :=
  [b % 2, b / 2 % 2, b / 4 % 2, b / 8 % 2,
   b / 16 % 2, b / 32 % 2, b / 64 % 2, b / 128 % 2]

/-- Model of numpy unpackbits with a count and little-endian bit
order. -/
def unpackbits (bytes : List Nat) (count : Nat) : List Nat :=
  (bytes.flatMap bitsOfByte).take count

/-- Row-major flattening of a grid, matching numpy flatten: axis 0
slowest, axis 2 fastest. -/
def flatten (g : Grid) : List Nat :=
  (List.range g.sx).flatMap (fun x =>
    (List.range g.sy).flatMap (fun y =>
      (List.range g.sz).map (fun z =>
        g.cell (Int.ofNat x) (Int.ofNat y) (Int.ofNat z))))

/-- Model of pack of python/libraries/packing.py: three shape bytes
(each written with int.to_bytes over one byte, which raises an
OverflowError exactly when the dimension exceeds 255 - modelled by the
none result) followed by the little-endian packbits of the flattened
grid. -/
def pack (polycube : Grid) : Option (List Nat) :=
  if polycube.sx ≤ 255 ∧ polycube.sy ≤ 255 ∧ polycube.sz ≤ 255 then
    some ([polycube.sx, polycube.sy, polycube.sz] ++ packbits (flatten polycube))
  else
    none

/-- Model of unpack of python/libraries/packing.py: read the three
shape bytes, unpack the body bits with a count of dx times dy times dz,
and reshape row-major. -/
def unpack (cube_id : List Nat) : Grid :=
  let dx := cube_id.getD 0 0
  let dy := cube_id.getD 1 0
  let dz := cube_id.getD 2 0
  let bits := unpackbits (cube_id.drop 3) (dx * dy * dz)
  ⟨dx, dy, dz, fun x y z => bits.getD (x.toNat * (dy * dz) + y.toNat * dz + z.toNat) 0⟩

/-- Python comparison on byte strings: strict lexicographic order on
the byte values, a proper prefix comparing smaller. -/
def bytesLt : List Nat → List Nat → Bool
  | _, [] => false
  | [], _ :: _ => true
  | a :: as, b :: bs =>
    if a < b then true
    else if b < a then false
    else bytesLt as bs

/-- One step of the maximum in the canonicalizer: keep the larger of
the current maximum and a new identifier. -/
def pickMax (m h : List Nat) : List Nat :=
  if bytesLt m h then h else m

/-- Loop body of get_canonical_packing: walk the rotations, pack each,
return the identifier at once when it is already known, otherwise keep
the lexicographic maximum.  A pack failure (dimension above 255)
propagates as none, like the Python exception. -/
def canonLoop (known_ids : List (List Nat)) : List Nat → List Grid → Option (List Nat)
  | max_id, [] => some max_id
  | max_id, r :: rs =>
    match pack r with
    | none => none
    | some this_id =>
      if this_id ∈ known_ids then some this_id
      else canonLoop known_ids (pickMax max_id this_id) rs

/-- Model of get_canonical_packing of python/cubes.py: the maximum
packed identifier over all 24 rotations, with an early exit when a
rotation is already in the known set.  The initial maximum is the
single zero byte. -/
def get_canonical_packing (polycube : Grid) (known_ids : List (List Nat)) :
    Option (List Nat) :=
  canonLoop known_ids [0] (all_rotations polycube)

/-- In-bounds predicate for a coordinate triple of a grid. -/
def inBounds (g : Grid) (x y z : Int) : Prop :=
  0 ≤ x ∧ x < g.sx ∧ 0 ≤ y ∧ y < g.sy ∧ 0 ≤ z ∧ z < g.sz

instance (g : Grid) (x y z : Int) : Decidable (inBounds g x y z) := by
  unfold inBounds
  exact inferInstance

/-- Slice test used by crop_cube: numpy any over all entries of the
slice of the grid at the given index along axis 0. -/
def sliceNZ (g : Grid) (x : Nat) : Bool :=
  (List.range g.sy).any fun y =>
    (List.range g.sz).any fun z =>
      g.cell (Int.ofNat x) (Int.ofNat y) (Int.ofNat z) != 0

/-- Indices along axis 0 whose slice holds a nonzero entry, in order:
the boolean mask selection of crop_cube. -/
def kept (g : Grid) : List Nat := (List.range g.sx).filter (sliceNZ g)

/-- One pass of crop_cube along axis 0: keep exactly the slices that
hold a nonzero entry, reindexed compactly, as numpy boolean indexing
does. -/
def filter0 (g : Grid) : Grid :=
  ⟨(kept g).length, g.sy, g.sz, fun x y z =>
    g.cell (((kept g).getD x.toNat 0 : Nat) : Int) y z⟩

/-- Model of numpy swapaxes 0 1. -/
def sw01 (g : Grid) : Grid := ⟨g.sy, g.sx, g.sz, fun x y z => g.cell y x z⟩

/-- Model of numpy swapaxes 0 2. -/
def sw02 (g : Grid) : Grid := ⟨g.sz, g.sy, g.sx, fun x y z => g.cell z y x⟩

/-- Model of crop_cube of python/libraries/resizing.py (identical in
libraries/cropping.py): for each axis in turn, swap it to the front,
drop every all-zero slice along the front axis, swap back.  The swap
for axis 0 is the identity. -/
def crop_cube (cube : Grid) : Grid :=
  sw02 (filter0 (sw02 (sw01 (filter0 (sw01 (filter0 cube))))))

/-- Model of fix_axis of python/libraries/resizing.py: rotate the grid
so that its shape is sorted.  The branches mirror the source; the
final fall-through branch is unreachable (the source prints an error
and exits there) and is modelled as returning the input unchanged. -/
def fix_axis (cube : Grid) : Grid :=
  if cube.sx ≤ cube.sy ∧ cube.sy ≤ cube.sz then cube
  else if cube.sz ≤ cube.sy ∧ cube.sy ≤ cube.sx then rot02 cube
  else if cube.sx = cube.sy ∨ cube.sy = cube.sz then
    if cube.sx < cube.sz then cube else rot02 cube
  else if cube.sx = cube.sz then
    if cube.sx < cube.sy then rot12 cube else rot01 cube
  else if cube.sx < cube.sz ∧ cube.sz < cube.sy then rot12 cube
  else if cube.sy < cube.sz ∧ cube.sz < cube.sx then rot12 (rot01 cube)
  else if cube.sy < cube.sx ∧ cube.sx < cube.sz then rot01 cube
  else if cube.sz < cube.sx ∧ cube.sx < cube.sy then rot01 (rot12 cube)
  else cube

/-- Model of numpy pad with one layer of zeros on every side: the
original grid sits at offset one in each axis. -/
def padg (g : Grid) : Grid :=
  ⟨g.sx + 2, g.sy + 2, g.sz + 2, fun x y z =>
    if 1 ≤ x ∧ x ≤ g.sx ∧ 1 ≤ y ∧ y ≤ g.sy ∧ 1 ≤ z ∧ z ≤ g.sz then
      g.cell (x - 1) (y - 1) (z - 1)
    else 0⟩

/-- The six face-neighbor offsets. -/
def nbhd : List (Int × Int × Int) :=
  [(1, 0, 0), (-1, 0, 0), (0, 1, 0), (0, -1, 0), (0, 0, 1), (0, 0, -1)]

/-- A coordinate has a filled in-bounds face neighbor in the grid. -/
def hasFilledNbr (c : Grid) (x y z : Int) : Bool :=
  nbhd.any fun d =>
    decide (inBounds c (x - d.1) (y - d.2.1) (z - d.2.2)) &&
      (c.cell (x - d.1) (y - d.2.1) (z - d.2.2) != 0)

/-- Model of the output_cube of expand_cube after the six shifted
assignments: every face neighbor of a filled cell is set to one, other
entries keep their value. -/
def dilate (c : Grid) : Grid :=
  ⟨c.sx, c.sy, c.sz, fun x y z =>
    if hasFilledNbr c x y z then 1 else c.cell x y z⟩

/-- Positions where output_cube xor cube is nonzero, in the row-major
order produced by numpy nonzero. -/
def expPositions (c out : Grid) : List (Int × Int × Int) :=
  (List.range c.sx).flatMap fun x =>
    (List.range c.sy).flatMap fun y =>
      (List.range c.sz).filterMap fun z =>
        if Nat.xor (out.cell (Int.ofNat x) (Int.ofNat y) (Int.ofNat z))
            (c.cell (Int.ofNat x) (Int.ofNat y) (Int.ofNat z)) ≠ 0 then
          some (Int.ofNat x, Int.ofNat y, Int.ofNat z)
        else none

/-- Copy of the padded cube with one extra cell set to one. -/
def setCell (c : Grid) (p : Int × Int × Int) : Grid :=
  ⟨c.sx, c.sy, c.sz, fun x y z =>
    if x = p.1 ∧ y = p.2.1 ∧ z = p.2.2 then 1 else c.cell x y z⟩

/-- Model of expand_cube of python/libraries/resizing.py: pad the
polycube by one, mark every empty face neighbor of a filled cell, and
for each marked position yield the padded grid with that position
additionally set, cropped and axis-fixed. -/
def expand_cube (cube : Grid) : List Grid :=
  let c := padg cube
  let out := dilate c
  (expPositions c out).map fun p => fix_axis (crop_cube (setCell c p))

/-- Model of expand_cube of libraries/cropping.py: identical except
that the yielded grids are only cropped, not axis-fixed. -/
def expand_cube_src (cube : Grid) : List Grid :=
  let c := padg cube
  let out := dilate c
  (expPositions c out).map fun p => crop_cube (setCell c p)

/-- Dense grid of ones, modelling numpy ones. -/
def ones (a b c : Nat) : Grid := ⟨a, b, c, fun _ _ _ => 1⟩

/-- One step of the hashing loop of generate_polycubes: canonicalize a
new cube against the known identifiers and insert the result when it
is new.  Python set insertion is modelled by appending to a duplicate
free list. -/
def addCube (known_ids : List (List Nat)) (new_cube : Grid) :
    Option (List (List Nat)) :=
  match get_canonical_packing new_cube known_ids with
  | none => none
  | some cube_id =>
    some (if cube_id ∈ known_ids then known_ids else known_ids ++ [cube_id])

/-- The hashing stage of generate_polycubes over a list of base cubes:
expand every base cube and canonicalize every expansion against the
growing identifier set. -/
def hashStage (base_cubes : List Grid) : Option (List (List Nat)) :=
  base_cubes.foldlM (fun known base => (expand_cube base).foldlM addCube known) []

/-- Recursion core of generate_polycubes of python/cubes.py on the
size as a natural number (the n below one case is handled by the
wrapper): base cases for sizes one and two, then hash the expansions
of the previous tier and unpack every surviving identifier. -/
def generate_nat : Nat → Option (List Grid)
  | 0 => some []
  | 1 => some [ones 1 1 1]
  | 2 => some [ones 2 1 1]
  | n + 3 => do
    let prev ← generate_nat (n + 2)
    let known_ids ← hashStage prev
    pure (known_ids.map unpack)

/-- Model of generate_polycubes of python/cubes.py with use_cache
false: sizes below one give the empty list, otherwise the inductive
enumeration runs.  The none result models an uncaught Python
exception, which in fact never occurs for these inputs. -/
def generate_polycubes (n : Int) : Option (List Grid) :=
  if n < 1 then some [] else generate_nat n.toNat

/-! Lemmas about the bit-level codec. -/

theorem toBit_le_one (v : Nat) : toBit v ≤ 1 := by
  unfold toBit
  split <;> omega

theorem byteOf_cons (a : Nat) (t : List Nat) :
    byteOf (a :: t) = toBit a + 2 * byteOf t := rfl

theorem byteOf_bit (l : List Nat) (i : Nat) (h : i < l.length) :
    byteOf l / 2 ^ i % 2 = toBit (l.getD i 0) := by
  induction l generalizing i with
  | nil => simp at h
  | cons a t ih =>
    have ha := toBit_le_one a
    cases i with
    | zero =>
      simp only [byteOf_cons, pow_zero, Nat.div_one, List.getD_cons_zero]
      omega
    | succ j =>
      have hdiv : (toBit a + 2 * byteOf t) / 2 = byteOf t := by omega
      have hstep : byteOf (a :: t) / 2 ^ (j + 1) = byteOf t / 2 ^ j := by
        rw [byteOf_cons, pow_succ, mul_comm (2 ^ j) 2, ← Nat.div_div_eq_div_mul, hdiv]
      rw [hstep, List.getD_cons_succ]
      exact ih j (by simpa using h)

theorem length_packbits (l : List Nat) :
    (packbits l).length = (l.length + 7) / 8 := by
  induction l using packbits.induct <;> simp [packbits, *] <;> omega

theorem packbits_bit_short (l : List Nat) (hp : packbits l = [byteOf l])
    (i : Nat) (hi : i < l.length) (hlen : l.length ≤ 7) :
    (packbits l).getD (i / 8) 0 / 2 ^ (i % 8) % 2 = toBit (l.getD i 0) := by
  have h0 : i / 8 = 0 := by omega
  have h1 : i % 8 = i := by omega
  rw [hp, h0, h1, List.getD_cons_zero]
  exact byteOf_bit l i hi

theorem packbits_bit (l : List Nat) (i : Nat) (h : i < l.length) :
    (packbits l).getD (i / 8) 0 / 2 ^ (i % 8) % 2 = toBit (l.getD i 0) := by
  induction l using packbits.induct generalizing i with
  | case1 => simp at h
  | case2 b0 b1 b2 b3 b4 b5 b6 b7 rest ih =>
    by_cases hi : i < 8
    · have h8 : i / 8 = 0 ∧ i % 8 = i := by omega
      rw [h8.1, h8.2]
      show (packbits _).getD 0 0 / 2 ^ i % 2 = _
      rw [packbits]
      have hb := byteOf_bit [b0, b1, b2, b3, b4, b5, b6, b7] i (by simp; omega)
      simp only [List.getD_cons_zero]
      rw [hb]
      interval_cases i <;> rfl
    · obtain ⟨j, rfl⟩ : ∃ j, i = j + 8 := ⟨i - 8, by omega⟩
      have hq : (j + 8) / 8 = j / 8 + 1 := by omega
      have hr : (j + 8) % 8 = j % 8 := by omega
      rw [hq, hr, packbits]
      simp only [List.getD_cons_succ]
      exact ih j (by simp at h ⊢; omega)
  | case3 b0 => exact packbits_bit_short [b0] rfl i h (by simp)
  | case4 b0 b1 => exact packbits_bit_short [b0, b1] rfl i h (by simp)
  | case5 b0 b1 b2 => exact packbits_bit_short [b0, b1, b2] rfl i h (by simp)
  | case6 b0 b1 b2 b3 => exact packbits_bit_short [b0, b1, b2, b3] rfl i h (by simp)
  | case7 b0 b1 b2 b3 b4 =>
    exact packbits_bit_short [b0, b1, b2, b3, b4] rfl i h (by simp)
  | case8 b0 b1 b2 b3 b4 b5 =>
    exact packbits_bit_short [b0, b1, b2, b3, b4, b5] rfl i h (by simp)
  | case9 b0 b1 b2 b3 b4 b5 b6 =>
    exact packbits_bit_short [b0, b1, b2, b3, b4, b5, b6] rfl i h (by simp)

theorem flatten_chunks_getD (L : List (List Nat)) (m : Nat)
    (hm : ∀ l ∈ L, l.length = m) (j r : Nat) (hj : j < L.length) (hr : r < m) :
    L.flatten.getD (j * m + r) 0 = (L.getD j []).getD r 0 := by
  induction L generalizing j with
  | nil => simp at hj
  | cons a t ih =>
    have ha : a.length = m := hm a (List.mem_cons_self a t)
    cases j with
    | zero =>
      simp only [List.flatten_cons, Nat.zero_mul, Nat.zero_add, List.getD_cons_zero]
      exact List.getD_append a t.flatten 0 r (by omega)
    | succ k =>
      have hidx : (k + 1) * m + r = a.length + (k * m + r) := by rw [ha]; ring
      rw [List.flatten_cons, hidx, List.getD_append_right a t.flatten 0 _ (by omega),
        Nat.add_sub_cancel_left, List.getD_cons_succ]
      exact ih (fun l hl => hm l (List.mem_cons_of_mem a hl)) k (by simpa using hj) 

theorem getD_map_range (n : Nat) (f : Nat → List Nat) (j : Nat) (hj : j < n) :
    ((List.range n).map f).getD j [] = f j := by
  rw [List.getD_eq_getElem _ _ (by simpa using hj)]
  simp

theorem length_flatMap_bitsOfByte (L : List Nat) :
    (L.flatMap bitsOfByte).length = 8 * L.length := by
  induction L with
  | nil => simp
  | cons a t ih => simp [bitsOfByte, ih]; omega

theorem bitsOfByte_getD (b r : Nat) (hr : r < 8) :
    (bitsOfByte b).getD r 0 = b / 2 ^ r % 2 := by
  interval_cases r <;> simp [bitsOfByte]

theorem unpackbits_packbits_getD (l : List Nat) (i : Nat) (h : i < l.length) :
    (unpackbits (packbits l) l.length).getD i 0 = toBit (l.getD i 0) := by
  have hlen : (packbits l).length = (l.length + 7) / 8 := length_packbits l
  have hfm : ((packbits l).flatMap bitsOfByte).length = 8 * (packbits l).length :=
    length_flatMap_bitsOfByte _
  have hi8 : i < ((packbits l).flatMap bitsOfByte).length := by omega
  unfold unpackbits
  rw [List.getD_eq_getElem _ _ (by simpa using (by omega : i < min l.length (((packbits l).flatMap bitsOfByte).length)))]
  rw [List.getElem_take]
  rw [← List.getD_eq_getElem _ 0 hi8]
  have hsplit : i = i / 8 * 8 + i % 8 := by omega
  rw [List.flatMap_def]
  rw [hsplit, flatten_chunks_getD ((packbits l).map bitsOfByte) 8
    (by intro x hx; simp at hx; obtain ⟨b, _, rfl⟩ := hx; simp [bitsOfByte])
    (i / 8) (i % 8) (by simp; omega) (by omega)]
  have hmap : ((packbits l).map bitsOfByte).getD (i / 8) [] =
      bitsOfByte ((packbits l).getD (i / 8) 0) := by
    rw [List.getD_eq_getElem _ _ (by simp; omega), List.getElem_map,
      List.getD_eq_getElem _ _ (by omega)]
  rw [hmap, bitsOfByte_getD _ _ (by omega)]
  rw [← hsplit]
  exact packbits_bit l i h

theorem length_unpackbits_packbits (l : List Nat) :
    (unpackbits (packbits l) l.length).length = l.length := by
  have := length_packbits l
  have := length_flatMap_bitsOfByte (packbits l)
  simp only [unpackbits, List.length_take]
  omega

theorem sum_map_const_range (n c : Nat) :
    ((List.range n).map (fun _ => c)).sum = n * c := by
  induction n with
  | zero => simp
  | succ k ih => rw [List.range_succ]; simp [ih]; ring

theorem length_slice (g : Grid) (x : Nat) :
    ((List.range g.sy).flatMap (fun y =>
      (List.range g.sz).map (fun z =>
        g.cell (Int.ofNat x) (Int.ofNat y) (Int.ofNat z)))).length = g.sy * g.sz := by
  rw [List.length_flatMap]
  rw [show List.map (List.length ∘ fun y => (List.range g.sz).map (fun z =>
        g.cell (Int.ofNat x) (Int.ofNat y) (Int.ofNat z))) (List.range g.sy) =
      (List.range g.sy).map (fun _ => g.sz) from
    List.map_congr_left (fun y _ => by simp [Function.comp])]
  exact sum_map_const_range _ _

theorem length_flatten_grid (g : Grid) :
    (flatten g).length = g.sx * (g.sy * g.sz) := by
  rw [flatten, List.length_flatMap]
  rw [show List.map (List.length ∘ fun x => (List.range g.sy).flatMap fun y =>
        (List.range g.sz).map (fun z =>
          g.cell (Int.ofNat x) (Int.ofNat y) (Int.ofNat z)))
        (List.range g.sx) = (List.range g.sx).map (fun _ => g.sy * g.sz) by
    apply List.map_congr_left
    intro x _
    exact length_slice g x]
  exact sum_map_const_range _ _

theorem flatten_getD (g : Grid) (x y z : Nat)
    (hx : x < g.sx) (hy : y < g.sy) (hz : z < g.sz) :
    (flatten g).getD (x * (g.sy * g.sz) + (y * g.sz + z)) 0 =
      g.cell (Int.ofNat x) (Int.ofNat y) (Int.ofNat z) := by
  rw [flatten, List.flatMap_def]
  rw [flatten_chunks_getD _ (g.sy * g.sz)
    (by
      intro l hl
      simp only [List.mem_map] at hl
      obtain ⟨x', _, rfl⟩ := hl
      exact length_slice g x')
    x (y * g.sz + z) (by simpa using hx) (by nlinarith)]
  rw [getD_map_range _ _ x hx, List.flatMap_def]
  rw [flatten_chunks_getD _ g.sz
    (by
      intro l hl
      simp only [List.mem_map] at hl
      obtain ⟨y', _, rfl⟩ := hl
      simp)
    y z (by simpa using hy) hz]
  rw [getD_map_range _ _ y hy]
  rw [List.getD_eq_getElem _ _ (by simpa using hz)]
  simp

/-- Grid whose in-bounds entries are all zero or one. -/
def zeroOne (g : Grid) : Prop :=
  ∀ x < g.sx, ∀ y < g.sy, ∀ z < g.sz,
    g.cell (Int.ofNat x) (Int.ofNat y) (Int.ofNat z) = 0 ∨
    g.cell (Int.ofNat x) (Int.ofNat y) (Int.ofNat z) = 1

instance (g : Grid) : Decidable (zeroOne g) := by
  unfold zeroOne
  exact inferInstance

/-- Straight tricube along axis 0. -/
def gBar : Grid := ones 3 1 1

/-- L-shaped tromino in a 2 by 2 by 1 box. -/
def gL : Grid :=
  ⟨2, 2, 1, fun x y _ => if x = 1 ∧ y = 1 then 0 else 1⟩

/-- Grid with a zero dimension. -/
def gZero : Grid := ⟨0, 1, 1, fun _ _ _ => 0⟩

/-- C2 counterexample: the claim states that pack fails whenever a
dimension of the grid is 0, but pack accepts a grid of shape 0 1 1 and
returns the three shape bytes with an empty body. -/
theorem pack_zero_dim_accepted : pack gZero = some [0, 1, 1] := by rfl

/-- C2 (amended): pack produces the three shape bytes dx dy dz first,
followed by a body of ceiling of dx dy dz over 8 bytes whose bits are
packed little-endian in row-major flatten order, and pack fails exactly
when some dimension exceeds 255 (a zero dimension is accepted). -/
theorem pack_layout (g : Grid) :
    ((g.sx ≤ 255 ∧ g.sy ≤ 255 ∧ g.sz ≤ 255) →
      ∃ body, pack g = some ([g.sx, g.sy, g.sz] ++ body) ∧
        body.length = (g.sx * g.sy * g.sz + 7) / 8 ∧
        ∀ i < g.sx * g.sy * g.sz,
          body.getD (i / 8) 0 / 2 ^ (i % 8) % 2 = toBit ((flatten g).getD i 0)) ∧
    (¬(g.sx ≤ 255 ∧ g.sy ≤ 255 ∧ g.sz ≤ 255) → pack g = none) := by
  constructor
  · intro h
    refine ⟨packbits (flatten g), by simp [pack, h], ?_, ?_⟩
    · rw [length_packbits, length_flatten_grid, Nat.mul_assoc]
    · intro i hi
      exact packbits_bit (flatten g) i
        (by rw [length_flatten_grid, ← Nat.mul_assoc]; exact hi)
  · intro h
    simp [pack, h]

/-- Witness for pack_layout at a concrete accepted grid and a concrete
oversized grid. -/
theorem pack_layout_witness :
    (∃ body, pack (ones 2 1 1) = some ([2, 1, 1] ++ body) ∧
      body.length = (2 * 1 * 1 + 7) / 8 ∧
      ∀ i < 2 * 1 * 1,
        body.getD (i / 8) 0 / 2 ^ (i % 8) % 2 =
          toBit ((flatten (ones 2 1 1)).getD i 0)) ∧
    pack (ones 300 1 1) = none :=
  ⟨(pack_layout (ones 2 1 1)).1 (by decide),
   (pack_layout (ones 300 1 1)).2 (by decide)⟩

/-- C3: for every grid with dimensions between 1 and 255 and all
in-bounds entries zero or one, unpacking the packed identifier returns
the grid bit for bit: same shape and same in-bounds entries. -/
theorem unpack_pack_roundtrip (g : Grid)
    (hx : 1 ≤ g.sx ∧ g.sx ≤ 255) (hy : 1 ≤ g.sy ∧ g.sy ≤ 255)
    (hz : 1 ≤ g.sz ∧ g.sz ≤ 255) (h01 : zeroOne g) :
    ∃ cube_id, pack g = some cube_id ∧ gridEq (unpack cube_id) g := by
  have hc : g.sx ≤ 255 ∧ g.sy ≤ 255 ∧ g.sz ≤ 255 := ⟨hx.2, hy.2, hz.2⟩
  refine ⟨[g.sx, g.sy, g.sz] ++ packbits (flatten g), by simp [pack, hc], ?_⟩
  unfold unpack gridEq
  simp only [List.cons_append, List.nil_append, List.getD_cons_zero,
    List.getD_cons_succ, List.drop_succ_cons, List.drop_zero]
  refine ⟨trivial, trivial, trivial, ?_⟩
  intro x hxlt y hylt z hzlt
  have hcast : ∀ n : Nat, (Int.ofNat n).toNat = n := fun n => rfl
  have hcount : g.sx * g.sy * g.sz = (flatten g).length := by
    rw [length_flatten_grid, Nat.mul_assoc]
  have hidx : x * (g.sy * g.sz) + y * g.sz + z =
      x * (g.sy * g.sz) + (y * g.sz + z) := by omega
  have hr : y * g.sz + z < g.sy * g.sz := by
    calc y * g.sz + z < y * g.sz + g.sz := by omega
      _ = (y + 1) * g.sz := by ring
      _ ≤ g.sy * g.sz := Nat.mul_le_mul_right _ (by omega)
  have hlt : x * (g.sy * g.sz) + (y * g.sz + z) < (flatten g).length := by
    rw [length_flatten_grid]
    calc x * (g.sy * g.sz) + (y * g.sz + z)
        < x * (g.sy * g.sz) + g.sy * g.sz := by omega
      _ = (x + 1) * (g.sy * g.sz) := by ring
      _ ≤ g.sx * (g.sy * g.sz) := Nat.mul_le_mul_right _ (by omega)
  show (unpackbits (packbits (flatten g)) (g.sx * g.sy * g.sz)).getD
      ((Int.ofNat x).toNat * (g.sy * g.sz) + (Int.ofNat y).toNat * g.sz +
        (Int.ofNat z).toNat) 0 = g.cell (Int.ofNat x) (Int.ofNat y) (Int.ofNat z)
  rw [hcast, hcast, hcast, hcount, hidx,
    unpackbits_packbits_getD (flatten g) _ hlt,
    flatten_getD g x y z hxlt hylt hzlt]
  rcases h01 x hxlt y hylt z hzlt with h | h <;> rw [h] <;> rfl

/-- Witness for unpack_pack_roundtrip at the L-tromino. -/
theorem unpack_pack_roundtrip_witness :
    ∃ cube_id, pack gL = some cube_id ∧ gridEq (unpack cube_id) gL :=
  unpack_pack_roundtrip gL (by decide) (by decide) (by decide) (by decide)

/-! Total order facts for the byte string comparison. -/

theorem bytesLt_irrefl (a : List Nat) : bytesLt a a = false := by
  induction a with
  | nil => rfl
  | cons x t ih => simp [bytesLt, ih]

theorem bytesLt_antisymm {a b : List Nat} (hab : bytesLt a b = false)
    (hba : bytesLt b a = false) : a = b := by
  induction a generalizing b with
  | nil =>
    cases b with
    | nil => rfl
    | cons y bs => simp [bytesLt] at hab
  | cons x t ih =>
    cases b with
    | nil => simp [bytesLt] at hba
    | cons y bs =>
      simp only [bytesLt] at hab hba
      rcases Nat.lt_trichotomy x y with h | h | h
      · rw [if_pos h] at hab
        exact absurd hab (by simp)
      · subst h
        rw [if_neg (lt_irrefl x), if_neg (lt_irrefl x)] at hab hba
        rw [ih hab hba]
      · rw [if_pos h] at hba
        exact absurd hba (by simp)

theorem bytesLt_trans {a b c : List Nat} (hab : bytesLt a b = true)
    (hbc : bytesLt b c = true) : bytesLt a c = true := by
  induction a generalizing b c with
  | nil =>
    cases c with
    | nil =>
      cases b with
      | nil => simp [bytesLt] at hab
      | cons y bs => simp [bytesLt] at hbc
    | cons z cs => rfl
  | cons x t ih =>
    cases b with
    | nil => simp [bytesLt] at hab
    | cons y bs =>
      cases c with
      | nil => simp [bytesLt] at hbc
      | cons z cs =>
        simp only [bytesLt] at hab hbc ⊢
        rcases Nat.lt_trichotomy x y with h1 | h1 | h1
        · rcases Nat.lt_trichotomy y z with h2 | h2 | h2
          · rw [if_pos (by omega : x < z)]
          · subst h2
            rw [if_pos h1]
          · rw [if_pos h2, if_neg (by omega : ¬ y < z)] at hbc
            exact absurd hbc (by simp)
        · subst h1
          rcases Nat.lt_trichotomy x z with h2 | h2 | h2
          · rw [if_pos h2]
          · subst h2
            rw [if_neg (lt_irrefl x), if_neg (lt_irrefl x)] at hab hbc ⊢
            exact ih hab hbc
          · rw [if_pos h2, if_neg (by omega : ¬ x < z)] at hbc
            exact absurd hbc (by simp)
        · rw [if_pos h1, if_neg (by omega : ¬ x < y)] at hab
          exact absurd hab (by simp)

theorem bytesLt_asymm {a b : List Nat} (h : bytesLt a b = true) :
    bytesLt b a = false := by
  by_contra hc
  have hba : bytesLt b a = true := by
    cases hh : bytesLt b a
    · exact absurd hh hc
    · rfl
  have := bytesLt_trans h hba
  rw [bytesLt_irrefl] at this
  exact absurd this (by simp)

theorem pickMax_left_comm (c a b : List Nat) :
    pickMax (pickMax c a) b = pickMax (pickMax c b) a := by
  unfold pickMax
  by_cases h1 : bytesLt c a <;> by_cases h2 : bytesLt c b
  · by_cases h3 : bytesLt a b
    · simp [h1, h2, h3, bytesLt_asymm h3]
    · by_cases h4 : bytesLt b a
      · simp [h1, h2, h3, h4]
      · simp only [h1, h2, if_true, h3, h4, if_false]
        exact bytesLt_antisymm (by simpa using h3) (by simpa using h4)
  · have h3 : bytesLt a b = false := by
      cases hh : bytesLt a b
      · rfl
      · exact absurd (bytesLt_trans h1 hh) (by simpa using h2)
    simp [h1, h2, h3]
  · have h4 : bytesLt b a = false := by
      cases hh : bytesLt b a
      · rfl
      · exact absurd (bytesLt_trans h2 hh) (by simpa using h1)
    simp [h1, h2, h4]
  · simp [h1, h2]

/-! Behaviour of the canonicalizer loop over an empty known set. -/

theorem canonLoop_nil_fold (m : List Nat) (l : List Grid)
    (h : ∀ r ∈ l, pack r ≠ none) :
    canonLoop [] m l =
      some (l.foldl (fun acc r => pickMax acc ((pack r).getD [])) m) := by
  induction l generalizing m with
  | nil => rfl
  | cons a t ih =>
    obtain ⟨v, hv⟩ : ∃ v, pack a = some v := by
      cases hp : pack a
      · exact absurd hp (h a (List.mem_cons_self a t))
      · exact ⟨_, rfl⟩
    rw [canonLoop, hv]
    simp only [List.not_mem_nil, if_false]
    rw [ih _ (fun r hr => h r (List.mem_cons_of_mem a hr))]
    simp [hv]

theorem canonLoop_nil_none (m : List Nat) (l : List Grid)
    (h : ∃ r ∈ l, pack r = none) : canonLoop [] m l = none := by
  induction l generalizing m with
  | nil => simp at h
  | cons a t ih =>
    cases hp : pack a with
    | none => rw [canonLoop, hp]
    | some v =>
      rw [canonLoop, hp]
      simp only [List.not_mem_nil, if_false]
      apply ih
      obtain ⟨r, hr, hrn⟩ := h
      rcases List.mem_cons.mp hr with rfl | hmem
      · rw [hp] at hrn
        exact absurd hrn (by simp)
      · exact ⟨r, hmem, hrn⟩

theorem canonLoop_nil_perm (m : List Nat) {l1 l2 : List Grid} (p : l1.Perm l2) :
    canonLoop [] m l1 = canonLoop [] m l2 := by
  by_cases hex : ∃ r ∈ l1, pack r = none
  · rw [canonLoop_nil_none m l1 hex, canonLoop_nil_none m l2 ?_]
    obtain ⟨r, hr, hrn⟩ := hex
    exact ⟨r, p.mem_iff.mp hr, hrn⟩
  · push_neg at hex
    rw [canonLoop_nil_fold m l1 (fun r hr => hex r hr),
      canonLoop_nil_fold m l2 (fun r hr => hex r (p.mem_iff.mpr hr))]
    congr 1
    exact p.foldl_eq' (fun x _ y _ z => pickMax_left_comm z _ _) m

/-! The 24 rotation words and the group closure argument for the
canonicalizer.  wrd enumerates the entries of all_rotations as explicit
compositions of the three quarter-turn generators. -/

theorem grid_cell_congr (g : Grid) {a b c d e f : Int} (h1 : a = d)
    (h2 : b = e) (h3 : c = f) : g.cell a b c = g.cell d e f := by
  rw [h1, h2, h3]

def wrd (g : Grid) : Nat → Grid
  | 0 => g
  | 1 => rot12 g
  | 2 => rot12 (rot12 g)
  | 3 => rot12 (rot12 (rot12 g))
  | 4 => rot02 (rot02 g)
  | 5 => rot12 (rot02 (rot02 g))
  | 6 => rot12 (rot12 (rot02 (rot02 g)))
  | 7 => rot12 (rot12 (rot12 (rot02 (rot02 g))))
  | 8 => rot02 g
  | 9 => rot01 (rot02 g)
  | 10 => rot01 (rot01 (rot02 g))
  | 11 => rot01 (rot01 (rot01 (rot02 g)))
  | 12 => rot02 (rot02 (rot02 g))
  | 13 => rot01 (rot02 (rot02 (rot02 g)))
  | 14 => rot01 (rot01 (rot02 (rot02 (rot02 g))))
  | 15 => rot01 (rot01 (rot01 (rot02 (rot02 (rot02 g)))))
  | 16 => rot01 g
  | 17 => rot02 (rot01 g)
  | 18 => rot02 (rot02 (rot01 g))
  | 19 => rot02 (rot02 (rot02 (rot01 g)))
  | 20 => rot01 (rot01 (rot01 g))
  | 21 => rot02 (rot01 (rot01 (rot01 g)))
  | 22 => rot02 (rot02 (rot01 (rot01 (rot01 g))))
  | 23 => rot02 (rot02 (rot02 (rot01 (rot01 (rot01 g)))))
  | _ => g

theorem all_rotations_eq (g : Grid) :
    all_rotations g = List.map (wrd g) [0, 1, 2, 3, 4, 5, 6, 7, 8, 9, 10, 11, 12, 13, 14, 15, 16, 17, 18, 19, 20, 21, 22, 23] := rfl

theorem all_rotations_rot12_perm (g : Grid) :
    all_rotations (rot12 g) = List.map (wrd g) [1, 2, 3, 0, 7, 4, 5, 6, 9, 10, 11, 8, 15, 12, 13, 14, 19, 16, 17, 18, 21, 22, 23, 20] := by
  rw [all_rotations_eq (rot12 g)]
  simp only [List.map_cons, List.map_nil, List.cons.injEq, and_true]
  refine ⟨?_, ?_, ?_, ?_, ?_, ?_, ?_, ?_, ?_, ?_, ?_, ?_, ?_, ?_, ?_, ?_, ?_, ?_, ?_, ?_, ?_, ?_, ?_, ?_⟩
  case _ =>
    show rot12 g = rot12 g
    first
    | rfl
    | (refine Grid.ext rfl rfl rfl ?_
       funext x y z
       simp only [rot12, rot02, rot01]
       exact grid_cell_congr _ (by omega) (by omega) (by omega))
  case _ =>
    show rot12 (rot12 g) = rot12 (rot12 g)
    first
    | rfl
    | (refine Grid.ext rfl rfl rfl ?_
       funext x y z
       simp only [rot12, rot02, rot01]
       exact grid_cell_congr _ (by omega) (by omega) (by omega))
  case _ =>
    show rot12 (rot12 (rot12 g)) = rot12 (rot12 (rot12 g))
    first
    | rfl
    | (refine Grid.ext rfl rfl rfl ?_
       funext x y z
       simp only [rot12, rot02, rot01]
       exact grid_cell_congr _ (by omega) (by omega) (by omega))
  case _ =>
    show rot12 (rot12 (rot12 (rot12 g))) = g
    first
    | rfl
    | (refine Grid.ext rfl rfl rfl ?_
       funext x y z
       simp only [rot12, rot02, rot01]
       exact grid_cell_congr _ (by omega) (by omega) (by omega))
  case _ =>
    show rot02 (rot02 (rot12 g)) = rot12 (rot12 (rot12 (rot02 (rot02 g))))
    first
    | rfl
    | (refine Grid.ext rfl rfl rfl ?_
       funext x y z
       simp only [rot12, rot02, rot01]
       exact grid_cell_congr _ (by omega) (by omega) (by omega))
  case _ =>
    show rot12 (rot02 (rot02 (rot12 g))) = rot02 (rot02 g)
    first
    | rfl
    | (refine Grid.ext rfl rfl rfl ?_
       funext x y z
       simp only [rot12, rot02, rot01]
       exact grid_cell_congr _ (by omega) (by omega) (by omega))
  case _ =>
    show rot12 (rot12 (rot02 (rot02 (rot12 g)))) = rot12 (rot02 (rot02 g))
    first
    | rfl
    | (refine Grid.ext rfl rfl rfl ?_
       funext x y z
       simp only [rot12, rot02, rot01]
       exact grid_cell_congr _ (by omega) (by omega) (by omega))
  case _ =>
    show rot12 (rot12 (rot12 (rot02 (rot02 (rot12 g))))) = rot12 (rot12 (rot02 (rot02 g)))
    first
    | rfl
    | (refine Grid.ext rfl rfl rfl ?_
       funext x y z
       simp only [rot12, rot02, rot01]
       exact grid_cell_congr _ (by omega) (by omega) (by omega))
  case _ =>
    show rot02 (rot12 g) = rot01 (rot02 g)
    first
    | rfl
    | (refine Grid.ext rfl rfl rfl ?_
       funext x y z
       simp only [rot12, rot02, rot01]
       exact grid_cell_congr _ (by omega) (by omega) (by omega))
  case _ =>
    show rot01 (rot02 (rot12 g)) = rot01 (rot01 (rot02 g))
    first
    | rfl
    | (refine Grid.ext rfl rfl rfl ?_
       funext x y z
       simp only [rot12, rot02, rot01]
       exact grid_cell_congr _ (by omega) (by omega) (by omega))
  case _ =>
    show rot01 (rot01 (rot02 (rot12 g))) = rot01 (rot01 (rot01 (rot02 g)))
    first
    | rfl
    | (refine Grid.ext rfl rfl rfl ?_
       funext x y z
       simp only [rot12, rot02, rot01]
       exact grid_cell_congr _ (by omega) (by omega) (by omega))
  case _ =>
    show rot01 (rot01 (rot01 (rot02 (rot12 g)))) = rot02 g
    first
    | rfl
    | (refine Grid.ext rfl rfl rfl ?_
       funext x y z
       simp only [rot12, rot02, rot01]
       exact grid_cell_congr _ (by omega) (by omega) (by omega))
  case _ =>
    show rot02 (rot02 (rot02 (rot12 g))) = rot01 (rot01 (rot01 (rot02 (rot02 (rot02 g)))))
    first
    | rfl
    | (refine Grid.ext rfl rfl rfl ?_
       funext x y z
       simp only [rot12, rot02, rot01]
       exact grid_cell_congr _ (by omega) (by omega) (by omega))
  case _ =>
    show rot01 (rot02 (rot02 (rot02 (rot12 g)))) = rot02 (rot02 (rot02 g))
    first
    | rfl
    | (refine Grid.ext rfl rfl rfl ?_
       funext x y z
       simp only [rot12, rot02, rot01]
       exact grid_cell_congr _ (by omega) (by omega) (by omega))
  case _ =>
    show rot01 (rot01 (rot02 (rot02 (rot02 (rot12 g))))) = rot01 (rot02 (rot02 (rot02 g)))
    first
    | rfl
    | (refine Grid.ext rfl rfl rfl ?_
       funext x y z
       simp only [rot12, rot02, rot01]
       exact grid_cell_congr _ (by omega) (by omega) (by omega))
  case _ =>
    show rot01 (rot01 (rot01 (rot02 (rot02 (rot02 (rot12 g)))))) = rot01 (rot01 (rot02 (rot02 (rot02 g))))
    first
    | rfl
    | (refine Grid.ext rfl rfl rfl ?_
       funext x y z
       simp only [rot12, rot02, rot01]
       exact grid_cell_congr _ (by omega) (by omega) (by omega))
  case _ =>
    show rot01 (rot12 g) = rot02 (rot02 (rot02 (rot01 g)))
    first
    | rfl
    | (refine Grid.ext rfl rfl rfl ?_
       funext x y z
       simp only [rot12, rot02, rot01]
       exact grid_cell_congr _ (by omega) (by omega) (by omega))
  case _ =>
    show rot02 (rot01 (rot12 g)) = rot01 g
    first
    | rfl
    | (refine Grid.ext rfl rfl rfl ?_
       funext x y z
       simp only [rot12, rot02, rot01]
       exact grid_cell_congr _ (by omega) (by omega) (by omega))
  case _ =>
    show rot02 (rot02 (rot01 (rot12 g))) = rot02 (rot01 g)
    first
    | rfl
    | (refine Grid.ext rfl rfl rfl ?_
       funext x y z
       simp only [rot12, rot02, rot01]
       exact grid_cell_congr _ (by omega) (by omega) (by omega))
  case _ =>
    show rot02 (rot02 (rot02 (rot01 (rot12 g)))) = rot02 (rot02 (rot01 g))
    first
    | rfl
    | (refine Grid.ext rfl rfl rfl ?_
       funext x y z
       simp only [rot12, rot02, rot01]
       exact grid_cell_congr _ (by omega) (by omega) (by omega))
  case _ =>
    show rot01 (rot01 (rot01 (rot12 g))) = rot02 (rot01 (rot01 (rot01 g)))
    first
    | rfl
    | (refine Grid.ext rfl rfl rfl ?_
       funext x y z
       simp only [rot12, rot02, rot01]
       exact grid_cell_congr _ (by omega) (by omega) (by omega))
  case _ =>
    show rot02 (rot01 (rot01 (rot01 (rot12 g)))) = rot02 (rot02 (rot01 (rot01 (rot01 g))))
    first
    | rfl
    | (refine Grid.ext rfl rfl rfl ?_
       funext x y z
       simp only [rot12, rot02, rot01]
       exact grid_cell_congr _ (by omega) (by omega) (by omega))
  case _ =>
    show rot02 (rot02 (rot01 (rot01 (rot01 (rot12 g))))) = rot02 (rot02 (rot02 (rot01 (rot01 (rot01 g)))))
    first
    | rfl
    | (refine Grid.ext rfl rfl rfl ?_
       funext x y z
       simp only [rot12, rot02, rot01]
       exact grid_cell_congr _ (by omega) (by omega) (by omega))
  case _ =>
    show rot02 (rot02 (rot02 (rot01 (rot01 (rot01 (rot12 g)))))) = rot01 (rot01 (rot01 g))
    first
    | rfl
    | (refine Grid.ext rfl rfl rfl ?_
       funext x y z
       simp only [rot12, rot02, rot01]
       exact grid_cell_congr _ (by omega) (by omega) (by omega))

theorem all_rotations_rot02_perm (g : Grid) :
    all_rotations (rot02 g) = List.map (wrd g) [8, 21, 14, 17, 12, 19, 10, 23, 4, 22, 2, 18, 0, 16, 6, 20, 9, 7, 15, 1, 11, 5, 13, 3] := by
  rw [all_rotations_eq (rot02 g)]
  simp only [List.map_cons, List.map_nil, List.cons.injEq, and_true]
  refine ⟨?_, ?_, ?_, ?_, ?_, ?_, ?_, ?_, ?_, ?_, ?_, ?_, ?_, ?_, ?_, ?_, ?_, ?_, ?_, ?_, ?_, ?_, ?_, ?_⟩
  case _ =>
    show rot02 g = rot02 g
    first
    | rfl
    | (refine Grid.ext rfl rfl rfl ?_
       funext x y z
       simp only [rot12, rot02, rot01]
       exact grid_cell_congr _ (by omega) (by omega) (by omega))
  case _ =>
    show rot12 (rot02 g) = rot02 (rot01 (rot01 (rot01 g)))
    first
    | rfl
    | (refine Grid.ext rfl rfl rfl ?_
       funext x y z
       simp only [rot12, rot02, rot01]
       exact grid_cell_congr _ (by omega) (by omega) (by omega))
  case _ =>
    show rot12 (rot12 (rot02 g)) = rot01 (rot01 (rot02 (rot02 (rot02 g))))
    first
    | rfl
    | (refine Grid.ext rfl rfl rfl ?_
       funext x y z
       simp only [rot12, rot02, rot01]
       exact grid_cell_congr _ (by omega) (by omega) (by omega))
  case _ =>
    show rot12 (rot12 (rot12 (rot02 g))) = rot02 (rot01 g)
    first
    | rfl
    | (refine Grid.ext rfl rfl rfl ?_
       funext x y z
       simp only [rot12, rot02, rot01]
       exact grid_cell_congr _ (by omega) (by omega) (by omega))
  case _ =>
    show rot02 (rot02 (rot02 g)) = rot02 (rot02 (rot02 g))
    first
    | rfl
    | (refine Grid.ext rfl rfl rfl ?_
       funext x y z
       simp only [rot12, rot02, rot01]
       exact grid_cell_congr _ (by omega) (by omega) (by omega))
  case _ =>
    show rot12 (rot02 (rot02 (rot02 g))) = rot02 (rot02 (rot02 (rot01 g)))
    first
    | rfl
    | (refine Grid.ext rfl rfl rfl ?_
       funext x y z
       simp only [rot12, rot02, rot01]
       exact grid_cell_congr _ (by omega) (by omega) (by omega))
  case _ =>
    show rot12 (rot12 (rot02 (rot02 (rot02 g)))) = rot01 (rot01 (rot02 g))
    first
    | rfl
    | (refine Grid.ext rfl rfl rfl ?_
       funext x y z
       simp only [rot12, rot02, rot01]
       exact grid_cell_congr _ (by omega) (by omega) (by omega))
  case _ =>
    show rot12 (rot12 (rot12 (rot02 (rot02 (rot02 g))))) = rot02 (rot02 (rot02 (rot01 (rot01 (rot01 g)))))
    first
    | rfl
    | (refine Grid.ext rfl rfl rfl ?_
       funext x y z
       simp only [rot12, rot02, rot01]
       exact grid_cell_congr _ (by omega) (by omega) (by omega))
  case _ =>
    show rot02 (rot02 g) = rot02 (rot02 g)
    first
    | rfl
    | (refine Grid.ext rfl rfl rfl ?_
       funext x y z
       simp only [rot12, rot02, rot01]
       exact grid_cell_congr _ (by omega) (by omega) (by omega))
  case _ =>
    show rot01 (rot02 (rot02 g)) = rot02 (rot02 (rot01 (rot01 (rot01 g))))
    first
    | rfl
    | (refine Grid.ext rfl rfl rfl ?_
       funext x y z
       simp only [rot12, rot02, rot01]
       exact grid_cell_congr _ (by omega) (by omega) (by omega))
  case _ =>
    show rot01 (rot01 (rot02 (rot02 g))) = rot12 (rot12 g)
    first
    | rfl
    | (refine Grid.ext rfl rfl rfl ?_
       funext x y z
       simp only [rot12, rot02, rot01]
       exact grid_cell_congr _ (by omega) (by omega) (by omega))
  case _ =>
    show rot01 (rot01 (rot01 (rot02 (rot02 g)))) = rot02 (rot02 (rot01 g))
    first
    | rfl
    | (refine Grid.ext rfl rfl rfl ?_
       funext x y z
       simp only [rot12, rot02, rot01]
       exact grid_cell_congr _ (by omega) (by omega) (by omega))
  case _ =>
    show rot02 (rot02 (rot02 (rot02 g))) = g
    first
    | rfl
    | (refine Grid.ext rfl rfl rfl ?_
       funext x y z
       simp only [rot12, rot02, rot01]
       exact grid_cell_congr _ (by omega) (by omega) (by omega))
  case _ =>
    show rot01 (rot02 (rot02 (rot02 (rot02 g)))) = rot01 g
    first
    | rfl
    | (refine Grid.ext rfl rfl rfl ?_
       funext x y z
       simp only [rot12, rot02, rot01]
       exact grid_cell_congr _ (by omega) (by omega) (by omega))
  case _ =>
    show rot01 (rot01 (rot02 (rot02 (rot02 (rot02 g))))) = rot12 (rot12 (rot02 (rot02 g)))
    first
    | rfl
    | (refine Grid.ext rfl rfl rfl ?_
       funext x y z
       simp only [rot12, rot02, rot01]
       exact grid_cell_congr _ (by omega) (by omega) (by omega))
  case _ =>
    show rot01 (rot01 (rot01 (rot02 (rot02 (rot02 (rot02 g)))))) = rot01 (rot01 (rot01 g))
    first
    | rfl
    | (refine Grid.ext rfl rfl rfl ?_
       funext x y z
       simp only [rot12, rot02, rot01]
       exact grid_cell_congr _ (by omega) (by omega) (by omega))
  case _ =>
    show rot01 (rot02 g) = rot01 (rot02 g)
    first
    | rfl
    | (refine Grid.ext rfl rfl rfl ?_
       funext x y z
       simp only [rot12, rot02, rot01]
       exact grid_cell_congr _ (by omega) (by omega) (by omega))
  case _ =>
    show rot02 (rot01 (rot02 g)) = rot12 (rot12 (rot12 (rot02 (rot02 g))))
    first
    | rfl
    | (refine Grid.ext rfl rfl rfl ?_
       funext x y z
       simp only [rot12, rot02, rot01]
       exact grid_cell_congr _ (by omega) (by omega) (by omega))
  case _ =>
    show rot02 (rot02 (rot01 (rot02 g))) = rot01 (rot01 (rot01 (rot02 (rot02 (rot02 g)))))
    first
    | rfl
    | (refine Grid.ext rfl rfl rfl ?_
       funext x y z
       simp only [rot12, rot02, rot01]
       exact grid_cell_congr _ (by omega) (by omega) (by omega))
  case _ =>
    show rot02 (rot02 (rot02 (rot01 (rot02 g)))) = rot12 g
    first
    | rfl
    | (refine Grid.ext rfl rfl rfl ?_
       funext x y z
       simp only [rot12, rot02, rot01]
       exact grid_cell_congr _ (by omega) (by omega) (by omega))
  case _ =>
    show rot01 (rot01 (rot01 (rot02 g))) = rot01 (rot01 (rot01 (rot02 g)))
    first
    | rfl
    | (refine Grid.ext rfl rfl rfl ?_
       funext x y z
       simp only [rot12, rot02, rot01]
       exact grid_cell_congr _ (by omega) (by omega) (by omega))
  case _ =>
    show rot02 (rot01 (rot01 (rot01 (rot02 g)))) = rot12 (rot02 (rot02 g))
    first
    | rfl
    | (refine Grid.ext rfl rfl rfl ?_
       funext x y z
       simp only [rot12, rot02, rot01]
       exact grid_cell_congr _ (by omega) (by omega) (by omega))
  case _ =>
    show rot02 (rot02 (rot01 (rot01 (rot01 (rot02 g))))) = rot01 (rot02 (rot02 (rot02 g)))
    first
    | rfl
    | (refine Grid.ext rfl rfl rfl ?_
       funext x y z
       simp only [rot12, rot02, rot01]
       exact grid_cell_congr _ (by omega) (by omega) (by omega))
  case _ =>
    show rot02 (rot02 (rot02 (rot01 (rot01 (rot01 (rot02 g)))))) = rot12 (rot12 (rot12 g))
    first
    | rfl
    | (refine Grid.ext rfl rfl rfl ?_
       funext x y z
       simp only [rot12, rot02, rot01]
       exact grid_cell_congr _ (by omega) (by omega) (by omega))

theorem all_rotations_rot01_perm (g : Grid) :
    all_rotations (rot01 g) = List.map (wrd g) [16, 9, 22, 13, 18, 11, 20, 15, 17, 7, 23, 3, 19, 5, 21, 1, 6, 14, 2, 10, 0, 8, 4, 12] := by
  rw [all_rotations_eq (rot01 g)]
  simp only [List.map_cons, List.map_nil, List.cons.injEq, and_true]
  refine ⟨?_, ?_, ?_, ?_, ?_, ?_, ?_, ?_, ?_, ?_, ?_, ?_, ?_, ?_, ?_, ?_, ?_, ?_, ?_, ?_, ?_, ?_, ?_, ?_⟩
  case _ =>
    show rot01 g = rot01 g
    first
    | rfl
    | (refine Grid.ext rfl rfl rfl ?_
       funext x y z
       simp only [rot12, rot02, rot01]
       exact grid_cell_congr _ (by omega) (by omega) (by omega))
  case _ =>
    show rot12 (rot01 g) = rot01 (rot02 g)
    first
    | rfl
    | (refine Grid.ext rfl rfl rfl ?_
       funext x y z
       simp only [rot12, rot02, rot01]
       exact grid_cell_congr _ (by omega) (by omega) (by omega))
  case _ =>
    show rot12 (rot12 (rot01 g)) = rot02 (rot02 (rot01 (rot01 (rot01 g))))
    first
    | rfl
    | (refine Grid.ext rfl rfl rfl ?_
       funext x y z
       simp only [rot12, rot02, rot01]
       exact grid_cell_congr _ (by omega) (by omega) (by omega))
  case _ =>
    show rot12 (rot12 (rot12 (rot01 g))) = rot01 (rot02 (rot02 (rot02 g)))
    first
    | rfl
    | (refine Grid.ext rfl rfl rfl ?_
       funext x y z
       simp only [rot12, rot02, rot01]
       exact grid_cell_congr _ (by omega) (by omega) (by omega))
  case _ =>
    show rot02 (rot02 (rot01 g)) = rot02 (rot02 (rot01 g))
    first
    | rfl
    | (refine Grid.ext rfl rfl rfl ?_
       funext x y z
       simp only [rot12, rot02, rot01]
       exact grid_cell_congr _ (by omega) (by omega) (by omega))
  case _ =>
    show rot12 (rot02 (rot02 (rot01 g))) = rot01 (rot01 (rot01 (rot02 g)))
    first
    | rfl
    | (refine Grid.ext rfl rfl rfl ?_
       funext x y z
       simp only [rot12, rot02, rot01]
       exact grid_cell_congr _ (by omega) (by omega) (by omega))
  case _ =>
    show rot12 (rot12 (rot02 (rot02 (rot01 g)))) = rot01 (rot01 (rot01 g))
    first
    | rfl
    | (refine Grid.ext rfl rfl rfl ?_
       funext x y z
       simp only [rot12, rot02, rot01]
       exact grid_cell_congr _ (by omega) (by omega) (by omega))
  case _ =>
    show rot12 (rot12 (rot12 (rot02 (rot02 (rot01 g))))) = rot01 (rot01 (rot01 (rot02 (rot02 (rot02 g)))))
    first
    | rfl
    | (refine Grid.ext rfl rfl rfl ?_
       funext x y z
       simp only [rot12, rot02, rot01]
       exact grid_cell_congr _ (by omega) (by omega) (by omega))
  case _ =>
    show rot02 (rot01 g) = rot02 (rot01 g)
    first
    | rfl
    | (refine Grid.ext rfl rfl rfl ?_
       funext x y z
       simp only [rot12, rot02, rot01]
       exact grid_cell_congr _ (by omega) (by omega) (by omega))
  case _ =>
    show rot01 (rot02 (rot01 g)) = rot12 (rot12 (rot12 (rot02 (rot02 g))))
    first
    | rfl
    | (refine Grid.ext rfl rfl rfl ?_
       funext x y z
       simp only [rot12, rot02, rot01]
       exact grid_cell_congr _ (by omega) (by omega) (by omega))
  case _ =>
    show rot01 (rot01 (rot02 (rot01 g))) = rot02 (rot02 (rot02 (rot01 (rot01 (rot01 g)))))
    first
    | rfl
    | (refine Grid.ext rfl rfl rfl ?_
       funext x y z
       simp only [rot12, rot02, rot01]
       exact grid_cell_congr _ (by omega) (by omega) (by omega))
  case _ =>
    show rot01 (rot01 (rot01 (rot02 (rot01 g)))) = rot12 (rot12 (rot12 g))
    first
    | rfl
    | (refine Grid.ext rfl rfl rfl ?_
       funext x y z
       simp only [rot12, rot02, rot01]
       exact grid_cell_congr _ (by omega) (by omega) (by omega))
  case _ =>
    show rot02 (rot02 (rot02 (rot01 g))) = rot02 (rot02 (rot02 (rot01 g)))
    first
    | rfl
    | (refine Grid.ext rfl rfl rfl ?_
       funext x y z
       simp only [rot12, rot02, rot01]
       exact grid_cell_congr _ (by omega) (by omega) (by omega))
  case _ =>
    show rot01 (rot02 (rot02 (rot02 (rot01 g)))) = rot12 (rot02 (rot02 g))
    first
    | rfl
    | (refine Grid.ext rfl rfl rfl ?_
       funext x y z
       simp only [rot12, rot02, rot01]
       exact grid_cell_congr _ (by omega) (by omega) (by omega))
  case _ =>
    show rot01 (rot01 (rot02 (rot02 (rot02 (rot01 g))))) = rot02 (rot01 (rot01 (rot01 g)))
    first
    | rfl
    | (refine Grid.ext rfl rfl rfl ?_
       funext x y z
       simp only [rot12, rot02, rot01]
       exact grid_cell_congr _ (by omega) (by omega) (by omega))
  case _ =>
    show rot01 (rot01 (rot01 (rot02 (rot02 (rot02 (rot01 g)))))) = rot12 g
    first
    | rfl
    | (refine Grid.ext rfl rfl rfl ?_
       funext x y z
       simp only [rot12, rot02, rot01]
       exact grid_cell_congr _ (by omega) (by omega) (by omega))
  case _ =>
    show rot01 (rot01 g) = rot12 (rot12 (rot02 (rot02 g)))
    first
    | rfl
    | (refine Grid.ext rfl rfl rfl ?_
       funext x y z
       simp only [rot12, rot02, rot01]
       exact grid_cell_congr _ (by omega) (by omega) (by omega))
  case _ =>
    show rot02 (rot01 (rot01 g)) = rot01 (rot01 (rot02 (rot02 (rot02 g))))
    first
    | rfl
    | (refine Grid.ext rfl rfl rfl ?_
       funext x y z
       simp only [rot12, rot02, rot01]
       exact grid_cell_congr _ (by omega) (by omega) (by omega))
  case _ =>
    show rot02 (rot02 (rot01 (rot01 g))) = rot12 (rot12 g)
    first
    | rfl
    | (refine Grid.ext rfl rfl rfl ?_
       funext x y z
       simp only [rot12, rot02, rot01]
       exact grid_cell_congr _ (by omega) (by omega) (by omega))
  case _ =>
    show rot02 (rot02 (rot02 (rot01 (rot01 g)))) = rot01 (rot01 (rot02 g))
    first
    | rfl
    | (refine Grid.ext rfl rfl rfl ?_
       funext x y z
       simp only [rot12, rot02, rot01]
       exact grid_cell_congr _ (by omega) (by omega) (by omega))
  case _ =>
    show rot01 (rot01 (rot01 (rot01 g))) = g
    first
    | rfl
    | (refine Grid.ext rfl rfl rfl ?_
       funext x y z
       simp only [rot12, rot02, rot01]
       exact grid_cell_congr _ (by omega) (by omega) (by omega))
  case _ =>
    show rot02 (rot01 (rot01 (rot01 (rot01 g)))) = rot02 g
    first
    | rfl
    | (refine Grid.ext rfl rfl rfl ?_
       funext x y z
       simp only [rot12, rot02, rot01]
       exact grid_cell_congr _ (by omega) (by omega) (by omega))
  case _ =>
    show rot02 (rot02 (rot01 (rot01 (rot01 (rot01 g))))) = rot02 (rot02 g)
    first
    | rfl
    | (refine Grid.ext rfl rfl rfl ?_
       funext x y z
       simp only [rot12, rot02, rot01]
       exact grid_cell_congr _ (by omega) (by omega) (by omega))
  case _ =>
    show rot02 (rot02 (rot02 (rot01 (rot01 (rot01 (rot01 g)))))) = rot02 (rot02 (rot02 g))
    first
    | rfl
    | (refine Grid.ext rfl rfl rfl ?_
       funext x y z
       simp only [rot12, rot02, rot01]
       exact grid_cell_congr _ (by omega) (by omega) (by omega))

theorem canonical_rot12 (g : Grid) :
    get_canonical_packing (rot12 g) [] = get_canonical_packing g [] := by
  unfold get_canonical_packing
  apply canonLoop_nil_perm
  rw [all_rotations_rot12_perm g, all_rotations_eq g]
  exact List.Perm.map (wrd g) (by decide)

theorem canonical_rot02 (g : Grid) :
    get_canonical_packing (rot02 g) [] = get_canonical_packing g [] := by
  unfold get_canonical_packing
  apply canonLoop_nil_perm
  rw [all_rotations_rot02_perm g, all_rotations_eq g]
  exact List.Perm.map (wrd g) (by decide)

theorem canonical_rot01 (g : Grid) :
    get_canonical_packing (rot01 g) [] = get_canonical_packing g [] := by
  unfold get_canonical_packing
  apply canonLoop_nil_perm
  rw [all_rotations_rot01_perm g, all_rotations_eq g]
  exact List.Perm.map (wrd g) (by decide)

/-- C4: canonical stability.  For any grid P and any rotation R of P
(an entry of all_rotations P), the canonicalizer run with an empty
known set returns the same identifier for both: the lexicographic
maximum packed identifier over the 24 rotations is invariant under
rotating the input. -/
theorem canonical_rotation_stable (P R : Grid) (h : R ∈ all_rotations P) :
    get_canonical_packing P [] = get_canonical_packing R [] := by
  rw [all_rotations_eq P] at h
  simp only [List.map_cons, List.map_nil, List.mem_cons, List.not_mem_nil,
    or_false] at h
  rcases h with rfl|rfl|rfl|rfl|rfl|rfl|rfl|rfl|rfl|rfl|rfl|rfl|rfl|rfl|rfl|rfl|rfl|rfl|rfl|rfl|rfl|rfl|rfl|rfl

  case _ => rfl
  case _ =>
    show get_canonical_packing P [] = get_canonical_packing (rot12 P) []
    first
    | rfl
    | (simp only [canonical_rot12, canonical_rot02, canonical_rot01])
  case _ =>
    show get_canonical_packing P [] = get_canonical_packing (rot12 (rot12 P)) []
    first
    | rfl
    | (simp only [canonical_rot12, canonical_rot02, canonical_rot01])
  case _ =>
    show get_canonical_packing P [] = get_canonical_packing (rot12 (rot12 (rot12 P))) []
    first
    | rfl
    | (simp only [canonical_rot12, canonical_rot02, canonical_rot01])
  case _ =>
    show get_canonical_packing P [] = get_canonical_packing (rot02 (rot02 P)) []
    first
    | rfl
    | (simp only [canonical_rot12, canonical_rot02, canonical_rot01])
  case _ =>
    show get_canonical_packing P [] = get_canonical_packing (rot12 (rot02 (rot02 P))) []
    first
    | rfl
    | (simp only [canonical_rot12, canonical_rot02, canonical_rot01])
  case _ =>
    show get_canonical_packing P [] = get_canonical_packing (rot12 (rot12 (rot02 (rot02 P)))) []
    first
    | rfl
    | (simp only [canonical_rot12, canonical_rot02, canonical_rot01])
  case _ =>
    show get_canonical_packing P [] = get_canonical_packing (rot12 (rot12 (rot12 (rot02 (rot02 P))))) []
    first
    | rfl
    | (simp only [canonical_rot12, canonical_rot02, canonical_rot01])
  case _ =>
    show get_canonical_packing P [] = get_canonical_packing (rot02 P) []
    first
    | rfl
    | (simp only [canonical_rot12, canonical_rot02, canonical_rot01])
  case _ =>
    show get_canonical_packing P [] = get_canonical_packing (rot01 (rot02 P)) []
    first
    | rfl
    | (simp only [canonical_rot12, canonical_rot02, canonical_rot01])
  case _ =>
    show get_canonical_packing P [] = get_canonical_packing (rot01 (rot01 (rot02 P))) []
    first
    | rfl
    | (simp only [canonical_rot12, canonical_rot02, canonical_rot01])
  case _ =>
    show get_canonical_packing P [] = get_canonical_packing (rot01 (rot01 (rot01 (rot02 P)))) []
    first
    | rfl
    | (simp only [canonical_rot12, canonical_rot02, canonical_rot01])
  case _ =>
    show get_canonical_packing P [] = get_canonical_packing (rot02 (rot02 (rot02 P))) []
    first
    | rfl
    | (simp only [canonical_rot12, canonical_rot02, canonical_rot01])
  case _ =>
    show get_canonical_packing P [] = get_canonical_packing (rot01 (rot02 (rot02 (rot02 P)))) []
    first
    | rfl
    | (simp only [canonical_rot12, canonical_rot02, canonical_rot01])
  case _ =>
    show get_canonical_packing P [] = get_canonical_packing (rot01 (rot01 (rot02 (rot02 (rot02 P))))) []
    first
    | rfl
    | (simp only [canonical_rot12, canonical_rot02, canonical_rot01])
  case _ =>
    show get_canonical_packing P [] = get_canonical_packing (rot01 (rot01 (rot01 (rot02 (rot02 (rot02 P)))))) []
    first
    | rfl
    | (simp only [canonical_rot12, canonical_rot02, canonical_rot01])
  case _ =>
    show get_canonical_packing P [] = get_canonical_packing (rot01 P) []
    first
    | rfl
    | (simp only [canonical_rot12, canonical_rot02, canonical_rot01])
  case _ =>
    show get_canonical_packing P [] = get_canonical_packing (rot02 (rot01 P)) []
    first
    | rfl
    | (simp only [canonical_rot12, canonical_rot02, canonical_rot01])
  case _ =>
    show get_canonical_packing P [] = get_canonical_packing (rot02 (rot02 (rot01 P))) []
    first
    | rfl
    | (simp only [canonical_rot12, canonical_rot02, canonical_rot01])
  case _ =>
    show get_canonical_packing P [] = get_canonical_packing (rot02 (rot02 (rot02 (rot01 P)))) []
    first
    | rfl
    | (simp only [canonical_rot12, canonical_rot02, canonical_rot01])
  case _ =>
    show get_canonical_packing P [] = get_canonical_packing (rot01 (rot01 (rot01 P))) []
    first
    | rfl
    | (simp only [canonical_rot12, canonical_rot02, canonical_rot01])
  case _ =>
    show get_canonical_packing P [] = get_canonical_packing (rot02 (rot01 (rot01 (rot01 P)))) []
    first
    | rfl
    | (simp only [canonical_rot12, canonical_rot02, canonical_rot01])
  case _ =>
    show get_canonical_packing P [] = get_canonical_packing (rot02 (rot02 (rot01 (rot01 (rot01 P))))) []
    first
    | rfl
    | (simp only [canonical_rot12, canonical_rot02, canonical_rot01])
  case _ =>
    show get_canonical_packing P [] = get_canonical_packing (rot02 (rot02 (rot02 (rot01 (rot01 (rot01 P)))))) []
    first
    | rfl
    | (simp only [canonical_rot12, canonical_rot02, canonical_rot01])

/-- Witness for canonical_rotation_stable: the quarter turn of the
L-tromino is one of its rotations and shares its canonical
identifier. -/
theorem canonical_rotation_stable_witness :
    rot12 gL ∈ all_rotations gL ∧
    get_canonical_packing gL [] = get_canonical_packing (rot12 gL) [] := by
  have hmem : rot12 gL ∈ all_rotations gL := by
    rw [all_rotations_eq gL]
    simp only [List.map_cons, List.map_nil, List.mem_cons]
    right
    left
    rfl
  exact ⟨hmem, canonical_rotation_stable gL (rot12 gL) hmem⟩

/-! Rotation counting for claim C7. -/

/-- Shapes of the 24 enumerated rotations of a grid of shape a b c. -/
def shapes24 (a b c : Nat) : List (Nat × Nat × Nat) :=
  [(a, b, c), (a, c, b), (a, b, c), (a, c, b),
   (a, b, c), (a, c, b), (a, b, c), (a, c, b),
   (c, b, a), (b, c, a), (c, b, a), (b, c, a),
   (c, b, a), (b, c, a), (c, b, a), (b, c, a),
   (b, a, c), (c, a, b), (b, a, c), (c, a, b),
   (b, a, c), (c, a, b), (b, a, c), (c, a, b)]

theorem map_shape_all_rotations (g : Grid) :
    (all_rotations g).map (fun r => (r.sx, r.sy, r.sz)) =
      shapes24 g.sx g.sy g.sz := rfl

/-- Number of enumerated rotations whose output has the same bounding
box shape as the input grid. -/
def boxPreserving (g : Grid) : Nat :=
  (all_rotations g).countP (fun r => (r.sx, r.sy, r.sz) == (g.sx, g.sy, g.sz))

/-- Number of distinct packed identifiers among the 24 enumerated
rotations of a grid. -/
def distinctRotationIds (g : Grid) : Nat :=
  ((all_rotations g).map pack).dedup.length

theorem boxPreserving_shapes (g : Grid) :
    boxPreserving g =
      (shapes24 g.sx g.sy g.sz).countP (fun s => s == (g.sx, g.sy, g.sz)) := by
  rw [← map_shape_all_rotations]
  simp only [boxPreserving, List.countP_map]
  rfl

/-- C7 counterexample: the straight tricube has exactly two equal
bounding box dimensions, but the set of distinct rotation grids (by
packed identifier) has size 3, not 8 as the claim states. -/
theorem rotation_distinct_count_cex :
    (gBar.sy = gBar.sz ∧ gBar.sx ≠ gBar.sy) ∧
    distinctRotationIds gBar = 3 ∧ distinctRotationIds gBar ≠ 8 := by
  refine ⟨by decide, ?_, ?_⟩ <;> decide

/-- C7 (amended): the full enumeration always yields exactly 24
possibly-duplicate grids, and the number of enumerated rotations that
preserve the bounding box shape is 4 when all three dimensions are
distinct, 8 when exactly two are equal, and 24 when all three are
equal.  (The number of distinct rotated grids can be smaller when the
polycube is symmetric.) -/
theorem rotation_box_counts (g : Grid) :
    (all_rotations g).length = 24 ∧
    (g.sx ≠ g.sy ∧ g.sy ≠ g.sz ∧ g.sx ≠ g.sz → boxPreserving g = 4) ∧
    ((g.sx = g.sy ∧ g.sy ≠ g.sz) ∨ (g.sy = g.sz ∧ g.sx ≠ g.sy) ∨
      (g.sx = g.sz ∧ g.sx ≠ g.sy) → boxPreserving g = 8) ∧
    (g.sx = g.sy ∧ g.sy = g.sz → boxPreserving g = 24) := by
  refine ⟨rfl, ?_, ?_, ?_⟩
  · rintro ⟨h1, h2, h3⟩
    rw [boxPreserving_shapes]
    simp [shapes24, List.countP_cons, h1, h2, h3, Ne.symm h1, Ne.symm h2,
      Ne.symm h3]
  · rintro (⟨h1, h2⟩ | ⟨h1, h2⟩ | ⟨h1, h2⟩) <;> rw [boxPreserving_shapes]
    · rw [h1]
      simp [shapes24, List.countP_cons, h2, Ne.symm h2]
    · rw [h1] at h2 ⊢
      simp [shapes24, List.countP_cons, h2, Ne.symm h2]
    · rw [h1] at h2 ⊢
      simp [shapes24, List.countP_cons, h2, Ne.symm h2]
  · rintro ⟨h1, h2⟩
    rw [boxPreserving_shapes, h1, h2]
    simp [shapes24, List.countP_cons]

/-- Witness for rotation_box_counts at three concrete grids covering
the three shape signatures. -/
theorem rotation_box_counts_witness :
    (all_rotations (ones 2 3 4)).length = 24 ∧
    boxPreserving (ones 2 3 4) = 4 ∧
    boxPreserving gBar = 8 ∧
    boxPreserving (ones 2 2 2) = 24 :=
  ⟨(rotation_box_counts (ones 2 3 4)).1,
   (rotation_box_counts (ones 2 3 4)).2.1 (by decide),
   (rotation_box_counts gBar).2.2.1 (by decide),
   (rotation_box_counts (ones 2 2 2)).2.2.2 (by decide)⟩

/-- C9 counterexample: generate_polycubes with a negative size returns
the empty list successfully; no InvalidArgument error is raised (the
source tests n below 1 and returns an empty list). -/
theorem generate_negative_cex : generate_polycubes (-1) = some [] := rfl

/-- C9 (amended): for every negative n, generate_polycubes returns the
empty list rather than an error. -/
theorem generate_negative (n : Int) (h : n < 0) :
    generate_polycubes n = some [] := by
  unfold generate_polycubes
  rw [if_pos (by omega)]

/-- Witness for generate_negative. -/
theorem generate_negative_witness : generate_polycubes (-5) = some [] :=
  generate_negative (-5) (by norm_num)

/-! Model of the multicore variant (cubes.py at the repository root
with libraries/packing.py and libraries/parallel.py) for claim C5. -/

/-- Python exceptions raised by the multicore variant. -/
inductive PyErr where
  | typeErr
  | overflowErr
deriving DecidableEq

/-- Value of the max_hash variable of get_canoincal_packing: it starts
as the int 0 and would later hold a bytes object. -/
inductive HashVal where
  | intVal : Int → HashVal
  | bytesVal : List Nat → HashVal
deriving DecidableEq

/-- Model of pack of libraries/packing.py at the repository root: the
raw int8 bytes of the array in row-major order followed by the three
shape bytes (to_bytes raises OverflowError above 255). -/
def pack_src (polycube : Grid) : Option (List Nat) :=
  if polycube.sx ≤ 255 ∧ polycube.sy ≤ 255 ∧ polycube.sz ≤ 255 then
    some (flatten polycube ++ [polycube.sx, polycube.sy, polycube.sz])
  else none

/-- Python comparison this_hash greater than max_hash: comparing a
bytes object with an int raises TypeError, which is what happens on
the first loop iteration since max_hash starts as the int 0. -/
def hashGt : List Nat → HashVal → Except PyErr Bool
  | _, HashVal.intVal _ => Except.error PyErr.typeErr
  | h, HashVal.bytesVal m => Except.ok (bytesLt m h)

/-- Loop of get_canoincal_packing of the multicore cubes.py. -/
def canoincalLoop (max_hash : HashVal) : List Grid → Except PyErr HashVal
  | [] => Except.ok max_hash
  | r :: rs =>
    match pack_src r with
    | none => Except.error PyErr.overflowErr
    | some this_hash =>
      match hashGt this_hash max_hash with
      | Except.error e => Except.error e
      | Except.ok b =>
        canoincalLoop (if b then HashVal.bytesVal this_hash else max_hash) rs

/-- Model of get_canoincal_packing of the multicore cubes.py: max_hash
is initialised to the int 0. -/
def get_canoincal_packing (polycube : Grid) : Except PyErr HashVal :=
  canoincalLoop (HashVal.intVal 0) (all_rotations polycube)

/-- Model of hash_cubes_task: canonicalize every expansion of every
base cube, collecting the hashes as a set; any exception propagates. -/
def hash_cubes_task (base_cubes : List Grid) : Except PyErr (List HashVal) :=
  base_cubes.foldlM (fun hashes base =>
    (expand_cube_src base).foldlM (fun hs new_cube => do
      let h ← get_canoincal_packing new_cube
      pure (if h ∈ hs then hs else hs ++ [h])) hashes) []

/-- Model of unpack_hashes_task: unpack every hash (unpacking a value
that is still an int would also raise). -/
def unpack_hashes_task (hs : List HashVal) : Except PyErr (List Grid) :=
  hs.mapM fun h =>
    match h with
    | HashVal.bytesVal b => Except.ok (unpack b)
    | HashVal.intVal _ => Except.error PyErr.typeErr

/-- Model of generate_polycubes of the multicore cubes.py with
use_cache false in serial mode: dispatch_tasks with enable_multicore
false applies the task function to the whole item list once. -/
def generate_src : Nat → Except PyErr (List Grid)
  | 0 => Except.ok []
  | 1 => Except.ok [ones 1 1 1]
  | 2 => Except.ok [ones 2 1 1]
  | n + 3 => do
    let prev ← generate_src (n + 2)
    let hashes ← hash_cubes_task prev
    unpack_hashes_task hashes

/-- C5: the multicore tier engine crashes.  At n = 3 the first call of
get_canoincal_packing compares a bytes identifier with the int 0 and
raises TypeError, so generate_polycubes fails instead of producing a
duplicate-free tier. -/
theorem generate_src_three_type_error :
    generate_src 3 = Except.error PyErr.typeErr := by rfl

/-! Model of the pcube archive codec (python/libraries/pcube.py) for
claim C6.  The gzip payload codec is external library code and is
modelled abstractly as a pair of functions; the roundtrip theorem takes
the inverse property as a hypothesis. -/

/-- Errors raised by the pcube reader. -/
inductive PcErr where
  | valueErr
  | indexErr
deriving DecidableEq

/-- The pcube magic bytes CB EC CB EC. -/
def pcube_magic : List Nat := [0xCB, 0xEC, 0xCB, 0xEC]

/-- Unsigned LEB128 encoding, as produced by the leb128 library. -/
def leb_encode (n : Nat) : List Nat :=
  if n < 128 then [n] else (n % 128 + 128) :: leb_encode (n / 128)
decreasing_by exact Nat.div_lt_self (by omega) (by omega)

/-- Unsigned LEB128 decoding from a byte stream, returning the value
and the remaining bytes; none models the library error on a truncated
stream. -/
def leb_decode : List Nat → Option (Nat × List Nat)
  | [] => none
  | b :: rest =>
    if b < 128 then some (b, rest)
    else
      match leb_decode rest with
      | none => none
      | some (v, r) => some (b - 128 + 128 * v, r)

/-- Model of write of pcube.py: magic, orientation byte, compression
byte, LEB128 count, then the concatenated records, gzip-compressed
when the compression byte is 1 (comp models gzip.compress). -/
def pcube_write (orientByte compByte : Nat) (polycubes : List (List Nat))
    (comp : List Nat → List Nat) : List Nat :=
  pcube_magic ++ [orientByte, compByte] ++ leb_encode polycubes.length ++
    (if compByte = 1 then comp polycubes.flatten else polycubes.flatten)

/-- Model of read_block of pcube.py: read three shape bytes (an
IndexError if fewer remain) and then the packed body; a short body is
returned silently, like file read. -/
def read_block (buf : List Nat) : Except PcErr (List Nat × List Nat) :=
  match buf with
  | s0 :: s1 :: s2 :: rest =>
    Except.ok (s0 :: s1 :: s2 :: rest.take ((s0 * s1 * s2 + 7) / 8),
      rest.drop ((s0 * s1 * s2 + 7) / 8))
  | _ => Except.error PcErr.indexErr

/-- Model of the count-is-zero loop of read: read_block is called
while the stream object stays readable, which in Python is forever, so
the loop can only end by an exception; read_block consumes at least
three bytes per step, so the fuel of length plus one is never
exhausted before the IndexError occurs. -/
def read_blocks_all : Nat → List Nat → Except PcErr (List (List Nat))
  | 0, _ => Except.error PcErr.indexErr
  | fuel + 1, buf =>
    match read_block buf with
    | Except.error e => Except.error e
    | Except.ok (b, rest) =>
      match read_blocks_all fuel rest with
      | Except.error e => Except.error e
      | Except.ok bs => Except.ok (b :: bs)

/-- Model of the counted loop of read: read exactly n blocks. -/
def read_blocks : Nat → List Nat → Except PcErr (List (List Nat))
  | 0, _ => Except.ok []
  | n + 1, buf =>
    match read_block buf with
    | Except.error e => Except.error e
    | Except.ok (b, rest) =>
      match read_blocks n rest with
      | Except.error e => Except.error e
      | Except.ok bs => Except.ok (b :: bs)

/-- Model of read of pcube.py: check the magic, the orientation and
compression enums, decode the count, optionally gunzip the remaining
payload (decomp models gzip.decompress), then read the records; a
count of zero enters the read-until-exception loop. -/
def pcube_read (decomp : List Nat → List Nat) (buf : List Nat) :
    Except PcErr (Nat × List (List Nat)) :=
  match buf with
  | m0 :: m1 :: m2 :: m3 :: orientByte :: compByte :: rest =>
    if [m0, m1, m2, m3] = pcube_magic then
      if orientByte ≤ 1 then
        if compByte ≤ 1 then
          match leb_decode rest with
          | none => Except.error PcErr.indexErr
          | some (n_cubes, rest2) =>
            let payload := if compByte = 1 then decomp rest2 else rest2
            if n_cubes = 0 then
              match read_blocks_all (payload.length + 1) payload with
              | Except.error e => Except.error e
              | Except.ok bs => Except.ok (orientByte, bs)
            else
              match read_blocks n_cubes payload with
              | Except.error e => Except.error e
              | Except.ok bs => Except.ok (orientByte, bs)
        else Except.error PcErr.valueErr
      else Except.error PcErr.valueErr
    else Except.error PcErr.valueErr
  | _ => Except.error PcErr.valueErr

/-- A polycube record: three shape bytes followed by exactly the
packed body the shape announces. -/
def wellFormedId (id : List Nat) : Prop :=
  id.length = 3 + (id.getD 0 0 * id.getD 1 0 * id.getD 2 0 + 7) / 8

instance (id : List Nat) : Decidable (wellFormedId id) := by
  unfold wellFormedId
  exact inferInstance

theorem leb_roundtrip (n : Nat) (tail : List Nat) :
    leb_decode (leb_encode n ++ tail) = some (n, tail) := by
  induction n using Nat.strong_induction_on with
  | _ n ih =>
    by_cases h : n < 128
    · rw [leb_encode, if_pos h]
      simp [leb_decode, h]
    · rw [leb_encode, if_neg h]
      have hrec := ih (n / 128) (Nat.div_lt_self (by omega) (by omega))
      simp only [List.cons_append, leb_decode,
        if_neg (by omega : ¬ n % 128 + 128 < 128), List.append_eq]
      rw [hrec]
      show some (n % 128 + 128 - 128 + 128 * (n / 128), tail) = some (n, tail)
      have harith : n % 128 + 128 - 128 + 128 * (n / 128) = n := by omega
      rw [harith]

theorem wf_decomp (id : List Nat) (h : wellFormedId id) :
    ∃ s0 s1 s2 body, id = s0 :: s1 :: s2 :: body ∧
      body.length = (s0 * s1 * s2 + 7) / 8 := by
  match id with
  | [] => exact absurd h (by simp [wellFormedId])
  | [a] => exact absurd h (by simp [wellFormedId])
  | [a, b] => exact absurd h (by simp [wellFormedId])
  | a :: b :: c :: body =>
    refine ⟨a, b, c, body, rfl, ?_⟩
    simp only [wellFormedId, List.length_cons, List.getD_cons_zero,
      List.getD_cons_succ] at h
    omega

theorem read_block_wf (id t : List Nat) (h : wellFormedId id) :
    read_block (id ++ t) = Except.ok (id, t) := by
  obtain ⟨s0, s1, s2, body, rfl, hb⟩ := wf_decomp id h
  simp only [List.cons_append, read_block]
  rw [← hb, List.take_left, List.drop_left]

theorem read_blocks_wf (L : List (List Nat)) (h : ∀ id ∈ L, wellFormedId id) :
    read_blocks L.length L.flatten = Except.ok L := by
  induction L with
  | nil => rfl
  | cons a t ih =>
    simp only [List.length_cons, List.flatten_cons, read_blocks,
      read_block_wf a t.flatten (h a (List.mem_cons_self a t)),
      ih (fun id hid => h id (List.mem_cons_of_mem a hid))]

/-- C6 counterexample: writing the empty list and reading the archive
back does not return the empty list; the reader enters the
count-is-zero loop and raises IndexError, with or without
compression. -/
theorem pcube_empty_roundtrip_fails :
    pcube_read (fun l => l) (pcube_write 0 0 [] (fun l => l)) =
      Except.error PcErr.indexErr := by
  have henc : leb_encode 0 = [0] := by rw [leb_encode]; norm_num
  simp [pcube_write, pcube_read, henc, pcube_magic, leb_decode,
    read_blocks_all, read_block]

/-- C6 (amended): for every nonempty list L of well-formed identifier
records and valid orientation and compression bytes, reading the
archive produced by writing L returns the orientation and exactly L,
both without compression and with the abstract gzip codec; for the
empty list the reader instead raises IndexError. -/
theorem pcube_roundtrip (L : List (List Nat)) (hne : L ≠ [])
    (hwf : ∀ id ∈ L, wellFormedId id) (orientByte compByte : Nat)
    (ho : orientByte ≤ 1) (hc : compByte ≤ 1)
    (comp decomp : List Nat → List Nat)
    (hcd : compByte = 1 → decomp (comp L.flatten) = L.flatten) :
    pcube_read decomp (pcube_write orientByte compByte L comp) =
      Except.ok (orientByte, L) := by
  have hbuf : pcube_write orientByte compByte L comp =
      0xCB :: 0xEC :: 0xCB :: 0xEC :: orientByte :: compByte ::
        (leb_encode L.length ++
          (if compByte = 1 then comp L.flatten else L.flatten)) := by
    simp [pcube_write, pcube_magic]
  rw [hbuf]
  simp only [pcube_read]
  rw [if_pos (show ([203, 236, 203, 236] : List Nat) = pcube_magic by rfl),
    if_pos ho, if_pos hc, leb_roundtrip]
  have hnz : L.length ≠ 0 := by
    intro hz
    exact hne (List.length_eq_zero.mp hz)
  simp only [if_neg hnz]
  by_cases h1 : compByte = 1
  · simp only [if_pos h1, hcd h1, read_blocks_wf L hwf]
  · simp only [if_neg h1, read_blocks_wf L hwf]

/-- Witness for pcube_roundtrip: a single record archive, with the
identity codec standing for gzip, in both compression modes. -/
theorem pcube_roundtrip_witness :
    pcube_read (fun l => l) (pcube_write 0 0 [[1, 1, 1, 1]] (fun l => l)) =
      Except.ok (0, [[1, 1, 1, 1]]) ∧
    pcube_read (fun l => l) (pcube_write 1 1 [[1, 1, 1, 1]] (fun l => l)) =
      Except.ok (1, [[1, 1, 1, 1]]) :=
  ⟨pcube_roundtrip [[1, 1, 1, 1]] (by simp) (by decide) 0 0 (by decide)
      (by decide) (fun l => l) (fun l => l) (fun h => by simp at h),
   pcube_roundtrip [[1, 1, 1, 1]] (by simp) (by decide) 1 1 (by decide)
      (by decide) (fun l => l) (fun l => l) (fun _ => rfl)⟩

/-! Cell counting machinery for claims C8 and C10. -/

/-- Number of nonzero entries in the axis-0 slice of a grid at index
x. -/
def sliceSum (g : Grid) (x : Nat) : Nat :=
  ∑ y ∈ Finset.range g.sy, ∑ z ∈ Finset.range g.sz,
    toBit (g.cell (Int.ofNat x) (Int.ofNat y) (Int.ofNat z))

/-- Number of nonzero in-bounds entries of a grid. -/
def cnt (g : Grid) : Nat := ∑ x ∈ Finset.range g.sx, sliceSum g x

theorem list_sum_range_eq (n : Nat) (f : Nat → Nat) :
    ((List.range n).map f).sum = ∑ i ∈ Finset.range n, f i := by
  induction n with
  | zero => simp
  | succ k ih => rw [List.range_succ, Finset.sum_range_succ]; simp [ih]

theorem map_getD_range (l : List Nat) (f : Nat → Nat) :
    (List.range l.length).map (fun i => f (l.getD i 0)) = l.map f := by
  induction l with
  | nil => simp
  | cons a t ih =>
    rw [List.length_cons, List.range_succ_eq_map, List.map_cons, List.map_map]
    simp only [List.getD_cons_zero, List.map_cons]
    congr 1

theorem sum_map_filter_eq (l : List Nat) (p : Nat → Bool) (f : Nat → Nat)
    (h : ∀ x ∈ l, p x = false → f x = 0) :
    ((l.filter p).map f).sum = (l.map f).sum := by
  induction l with
  | nil => rfl
  | cons a t ih =>
    have ht := fun x hx hpx => h x (List.mem_cons_of_mem a hx) hpx
    cases hp : p a with
    | true => simp [List.filter_cons, hp, ih ht]
    | false =>
      simp [List.filter_cons, hp, ih ht,
        h a (List.mem_cons_self a t) hp]

theorem kept_mem_lt (g : Grid) {x : Nat} (h : x ∈ kept g) :
    x < g.sx ∧ sliceNZ g x = true := by
  rw [kept, List.mem_filter, List.mem_range] at h
  exact h

theorem sliceSum_filter0 (g : Grid) (x : Nat) :
    sliceSum (filter0 g) x = sliceSum g ((kept g).getD x 0) := rfl

theorem sliceNZ_eq_true_iff (g : Grid) (x : Nat) :
    sliceNZ g x = true ↔
      ∃ y, y < g.sy ∧ ∃ z, z < g.sz ∧
        g.cell (Int.ofNat x) (Int.ofNat y) (Int.ofNat z) ≠ 0 := by
  unfold sliceNZ
  rw [List.any_eq_true]
  constructor
  · rintro ⟨y, hy, hinner⟩
    rw [List.any_eq_true] at hinner
    obtain ⟨z, hz, hb⟩ := hinner
    exact ⟨y, List.mem_range.mp hy, z, List.mem_range.mp hz, bne_iff_ne.mp hb⟩
  · rintro ⟨y, hy, z, hz, hne⟩
    exact ⟨y, List.mem_range.mpr hy,
      List.any_eq_true.mpr ⟨z, List.mem_range.mpr hz, bne_iff_ne.mpr hne⟩⟩

theorem sliceNZ_eq_false_iff (g : Grid) (x : Nat) :
    sliceNZ g x = false ↔ ∀ y < g.sy, ∀ z < g.sz,
      g.cell (Int.ofNat x) (Int.ofNat y) (Int.ofNat z) = 0 := by
  rw [← Bool.not_eq_true, sliceNZ_eq_true_iff]
  push_neg
  rfl

theorem sliceSum_zero_of_empty (g : Grid) (x : Nat)
    (h : sliceNZ g x = false) : sliceSum g x = 0 := by
  rw [sliceNZ_eq_false_iff] at h
  unfold sliceSum
  apply Finset.sum_eq_zero
  intro y hy
  apply Finset.sum_eq_zero
  intro z hz
  rw [h y (Finset.mem_range.mp hy) z (Finset.mem_range.mp hz)]
  rfl

theorem cnt_filter0 (g : Grid) : cnt (filter0 g) = cnt g := by
  unfold cnt
  have h1 : ∑ x ∈ Finset.range (filter0 g).sx, sliceSum (filter0 g) x =
      ∑ x ∈ Finset.range (kept g).length, sliceSum g ((kept g).getD x 0) := by
    apply Finset.sum_congr rfl
    intro x _
    exact sliceSum_filter0 g x
  rw [h1, ← list_sum_range_eq, map_getD_range, kept,
    sum_map_filter_eq (List.range g.sx) (sliceNZ g) (sliceSum g)
      (fun x _ hx => sliceSum_zero_of_empty g x hx),
    list_sum_range_eq]

theorem cnt_sw01 (g : Grid) : cnt (sw01 g) = cnt g := by
  unfold cnt sliceSum
  exact Finset.sum_comm

theorem sum3_swap02 {n m p : Nat} (f : Nat → Nat → Nat → Nat) :
    (∑ x ∈ Finset.range n, ∑ y ∈ Finset.range m, ∑ z ∈ Finset.range p,
      f x y z) =
    ∑ z ∈ Finset.range p, ∑ y ∈ Finset.range m, ∑ x ∈ Finset.range n,
      f x y z := by
  calc (∑ x ∈ Finset.range n, ∑ y ∈ Finset.range m, ∑ z ∈ Finset.range p,
        f x y z)
      = ∑ y ∈ Finset.range m, ∑ x ∈ Finset.range n, ∑ z ∈ Finset.range p,
        f x y z := Finset.sum_comm
    _ = ∑ y ∈ Finset.range m, ∑ z ∈ Finset.range p, ∑ x ∈ Finset.range n,
        f x y z := Finset.sum_congr rfl (fun y _ => Finset.sum_comm)
    _ = ∑ z ∈ Finset.range p, ∑ y ∈ Finset.range m, ∑ x ∈ Finset.range n,
        f x y z := Finset.sum_comm

theorem cnt_sw02 (g : Grid) : cnt (sw02 g) = cnt g := by
  unfold cnt sliceSum
  exact sum3_swap02
    (fun x y z => toBit (g.cell (Int.ofNat z) (Int.ofNat y) (Int.ofNat x)))

theorem cnt_crop (g : Grid) : cnt (crop_cube g) = cnt g := by
  unfold crop_cube
  rw [cnt_sw02, cnt_filter0, cnt_sw02, cnt_sw01, cnt_filter0, cnt_sw01,
    cnt_filter0]

theorem ofNat_sub_reflect (n j : Nat) (h : j < n) :
    ((n : Int) - 1 - Int.ofNat j) = Int.ofNat (n - 1 - j) := by
  simp only [Int.ofNat_eq_natCast]
  omega

theorem cnt_rot12 (g : Grid) : cnt (rot12 g) = cnt g := by
  unfold cnt sliceSum
  apply Finset.sum_congr rfl
  intro x _
  rw [Finset.sum_comm]
  apply Finset.sum_congr rfl
  intro y _
  rw [← Finset.sum_range_reflect
    (fun j => toBit (g.cell (Int.ofNat x) (Int.ofNat y) (Int.ofNat j))) g.sz]
  apply Finset.sum_congr rfl
  intro j hj
  have hj' : j < g.sz := Finset.mem_range.mp hj
  show toBit (g.cell (Int.ofNat x) (Int.ofNat y)
    ((g.sz : Int) - 1 - Int.ofNat j)) = _
  rw [ofNat_sub_reflect g.sz j hj']

theorem cnt_rot02 (g : Grid) : cnt (rot02 g) = cnt g := by
  unfold cnt sliceSum
  rw [sum3_swap02 (fun x y z => toBit ((rot02 g).cell (Int.ofNat x)
    (Int.ofNat y) (Int.ofNat z)))]
  apply Finset.sum_congr rfl
  intro x _
  apply Finset.sum_congr rfl
  intro y _
  rw [← Finset.sum_range_reflect
    (fun j => toBit (g.cell (Int.ofNat x) (Int.ofNat y) (Int.ofNat j))) g.sz]
  apply Finset.sum_congr rfl
  intro j hj
  have hj' : j < g.sz := Finset.mem_range.mp hj
  show toBit (g.cell (Int.ofNat x) (Int.ofNat y)
    ((g.sz : Int) - 1 - Int.ofNat j)) = _
  rw [ofNat_sub_reflect g.sz j hj']

theorem cnt_rot01 (g : Grid) : cnt (rot01 g) = cnt g := by
  unfold cnt sliceSum
  rw [Finset.sum_comm]
  apply Finset.sum_congr rfl
  intro x _
  rw [← Finset.sum_range_reflect
    (fun j => ∑ z ∈ Finset.range g.sz,
      toBit (g.cell (Int.ofNat x) (Int.ofNat j) (Int.ofNat z))) g.sy]
  apply Finset.sum_congr rfl
  intro j hj
  have hj' : j < g.sy := Finset.mem_range.mp hj
  apply Finset.sum_congr rfl
  intro z _
  show toBit (g.cell (Int.ofNat x) ((g.sy : Int) - 1 - Int.ofNat j)
    (Int.ofNat z)) = _
  rw [ofNat_sub_reflect g.sy j hj']

theorem cnt_fix_axis (g : Grid) : cnt (fix_axis g) = cnt g := by
  unfold fix_axis
  split_ifs <;> simp [cnt_rot12, cnt_rot02, cnt_rot01]

theorem sum_range_pad (n : Nat) (h : Nat → Nat) (h0 : h 0 = 0)
    (hn : h (n + 1) = 0) :
    ∑ i ∈ Finset.range (n + 2), h i = ∑ i ∈ Finset.range n, h (i + 1) := by
  rw [Finset.sum_range_succ, hn, add_zero, Finset.sum_range_succ', h0, add_zero]

theorem sum_range_update (n : Nat) (f f' : Nat → Nat) (x0 : Nat) (hx : x0 < n)
    (hsame : ∀ x < n, x ≠ x0 → f' x = f x) (hx0 : f' x0 = f x0 + 1) :
    ∑ x ∈ Finset.range n, f' x = (∑ x ∈ Finset.range n, f x) + 1 := by
  rw [← Finset.add_sum_erase _ f' (Finset.mem_range.mpr hx),
    ← Finset.add_sum_erase _ f (Finset.mem_range.mpr hx), hx0]
  have hsum : ∑ x ∈ (Finset.range n).erase x0, f' x =
      ∑ x ∈ (Finset.range n).erase x0, f x := by
    apply Finset.sum_congr rfl
    intro x hxm
    have h1 := Finset.mem_of_mem_erase hxm
    have h2 := Finset.ne_of_mem_erase hxm
    exact hsame x (Finset.mem_range.mp h1) h2
  rw [hsum]
  omega

theorem cnt_padg (g : Grid) : cnt (padg g) = cnt g := by
  unfold cnt
  have hslice0 : sliceSum (padg g) 0 = 0 := by
    unfold sliceSum padg
    apply Finset.sum_eq_zero
    intro y _
    apply Finset.sum_eq_zero
    intro z _
    simp [toBit]
  have hsliceN : sliceSum (padg g) (g.sx + 1) = 0 := by
    unfold sliceSum padg
    apply Finset.sum_eq_zero
    intro y _
    apply Finset.sum_eq_zero
    intro z _
    have : ¬((1 : Int) ≤ Int.ofNat (g.sx + 1) ∧ Int.ofNat (g.sx + 1) ≤ g.sx ∧
        1 ≤ Int.ofNat y ∧ Int.ofNat y ≤ g.sy ∧ 1 ≤ Int.ofNat z ∧
        Int.ofNat z ≤ g.sz) := by
      simp only [Int.ofNat_eq_natCast]
      omega
    simp only [if_neg this, toBit, ne_eq, not_true_eq_false, ite_false]
  show ∑ x ∈ Finset.range (g.sx + 2), sliceSum (padg g) x = _
  rw [sum_range_pad g.sx (sliceSum (padg g)) hslice0 hsliceN]
  apply Finset.sum_congr rfl
  intro x hx
  have hx' : x < g.sx := Finset.mem_range.mp hx
  unfold sliceSum
  show ∑ y ∈ Finset.range (g.sy + 2), (fun y => ∑ z ∈ Finset.range (g.sz + 2),
    toBit ((padg g).cell (Int.ofNat (x + 1)) (Int.ofNat y) (Int.ofNat z))) y = _
  rw [sum_range_pad g.sy _ ?_ ?_]
  · apply Finset.sum_congr rfl
    intro y hy
    have hy' : y < g.sy := Finset.mem_range.mp hy
    show ∑ z ∈ Finset.range (g.sz + 2), (fun z => toBit ((padg g).cell
      (Int.ofNat (x + 1)) (Int.ofNat (y + 1)) (Int.ofNat z))) z = _
    rw [sum_range_pad g.sz _ ?_ ?_]
    · apply Finset.sum_congr rfl
      intro z hz
      have hz' : z < g.sz := Finset.mem_range.mp hz
      show toBit ((padg g).cell (Int.ofNat (x + 1)) (Int.ofNat (y + 1))
        (Int.ofNat (z + 1))) = _
      unfold padg
      have hcond : (1 : Int) ≤ Int.ofNat (x + 1) ∧ Int.ofNat (x + 1) ≤ g.sx ∧
          1 ≤ Int.ofNat (y + 1) ∧ Int.ofNat (y + 1) ≤ g.sy ∧
          1 ≤ Int.ofNat (z + 1) ∧ Int.ofNat (z + 1) ≤ g.sz := by
        simp only [Int.ofNat_eq_natCast]
        omega
      show toBit (if 1 ≤ Int.ofNat (x + 1) ∧ Int.ofNat (x + 1) ≤ g.sx ∧
          1 ≤ Int.ofNat (y + 1) ∧ Int.ofNat (y + 1) ≤ g.sy ∧
          1 ≤ Int.ofNat (z + 1) ∧ Int.ofNat (z + 1) ≤ g.sz then
        g.cell (Int.ofNat (x + 1) - 1) (Int.ofNat (y + 1) - 1)
          (Int.ofNat (z + 1) - 1) else 0) = _
      rw [if_pos hcond]
      have e1 : Int.ofNat (x + 1) - 1 = Int.ofNat x := by
        simp only [Int.ofNat_eq_natCast]
        omega
      have e2 : Int.ofNat (y + 1) - 1 = Int.ofNat y := by
        simp only [Int.ofNat_eq_natCast]
        omega
      have e3 : Int.ofNat (z + 1) - 1 = Int.ofNat z := by
        simp only [Int.ofNat_eq_natCast]
        omega
      rw [e1, e2, e3]
    · show toBit ((padg g).cell (Int.ofNat (x + 1)) (Int.ofNat (y + 1))
        (Int.ofNat 0)) = 0
      unfold padg
      have : ¬((1 : Int) ≤ Int.ofNat (x + 1) ∧ Int.ofNat (x + 1) ≤ g.sx ∧
          1 ≤ Int.ofNat (y + 1) ∧ Int.ofNat (y + 1) ≤ g.sy ∧
          1 ≤ Int.ofNat 0 ∧ Int.ofNat 0 ≤ g.sz) := by
        simp only [Int.ofNat_eq_natCast]
        omega
      show toBit (if _ then _ else 0) = 0
      rw [if_neg this]
      rfl
    · show toBit ((padg g).cell (Int.ofNat (x + 1)) (Int.ofNat (y + 1))
        (Int.ofNat (g.sz + 1))) = 0
      unfold padg
      have : ¬((1 : Int) ≤ Int.ofNat (x + 1) ∧ Int.ofNat (x + 1) ≤ g.sx ∧
          1 ≤ Int.ofNat (y + 1) ∧ Int.ofNat (y + 1) ≤ g.sy ∧
          1 ≤ Int.ofNat (g.sz + 1) ∧ Int.ofNat (g.sz + 1) ≤ g.sz) := by
        simp only [Int.ofNat_eq_natCast]
        omega
      show toBit (if _ then _ else 0) = 0
      rw [if_neg this]
      rfl
  · show ∑ z ∈ Finset.range (g.sz + 2), toBit ((padg g).cell
      (Int.ofNat (x + 1)) (Int.ofNat 0) (Int.ofNat z)) = 0
    apply Finset.sum_eq_zero
    intro z _
    unfold padg
    have : ¬((1 : Int) ≤ Int.ofNat (x + 1) ∧ Int.ofNat (x + 1) ≤ g.sx ∧
        1 ≤ Int.ofNat 0 ∧ Int.ofNat 0 ≤ g.sy ∧
        1 ≤ Int.ofNat z ∧ Int.ofNat z ≤ g.sz) := by
      simp only [Int.ofNat_eq_natCast]
      omega
    show toBit (if _ then _ else 0) = 0
    rw [if_neg this]
    rfl
  · show ∑ z ∈ Finset.range (g.sz + 2), toBit ((padg g).cell
      (Int.ofNat (x + 1)) (Int.ofNat (g.sy + 1)) (Int.ofNat z)) = 0
    apply Finset.sum_eq_zero
    intro z _
    unfold padg
    have : ¬((1 : Int) ≤ Int.ofNat (x + 1) ∧ Int.ofNat (x + 1) ≤ g.sx ∧
        1 ≤ Int.ofNat (g.sy + 1) ∧ Int.ofNat (g.sy + 1) ≤ g.sy ∧
        1 ≤ Int.ofNat z ∧ Int.ofNat z ≤ g.sz) := by
      simp only [Int.ofNat_eq_natCast]
      omega
    show toBit (if _ then _ else 0) = 0
    rw [if_neg this]
    rfl

theorem cnt_setCell (c : Grid) (px py pz : Nat)
    (hx : px < c.sx) (hy : py < c.sy) (hz : pz < c.sz)
    (h0 : c.cell (Int.ofNat px) (Int.ofNat py) (Int.ofNat pz) = 0) :
    cnt (setCell c (Int.ofNat px, Int.ofNat py, Int.ofNat pz)) = cnt c + 1 := by
  have hcell : ∀ x y z : Nat,
      (setCell c (Int.ofNat px, Int.ofNat py, Int.ofNat pz)).cell
        (Int.ofNat x) (Int.ofNat y) (Int.ofNat z) =
      (if x = px ∧ y = py ∧ z = pz then 1
       else c.cell (Int.ofNat x) (Int.ofNat y) (Int.ofNat z)) := by
    intro x y z
    unfold setCell
    by_cases h : x = px ∧ y = py ∧ z = pz
    · obtain ⟨rfl, rfl, rfl⟩ := h
      simp
    · rw [if_neg h]
      show (if Int.ofNat x = Int.ofNat px ∧ Int.ofNat y = Int.ofNat py ∧
          Int.ofNat z = Int.ofNat pz then 1
        else c.cell (Int.ofNat x) (Int.ofNat y) (Int.ofNat z)) = _
      rw [if_neg ?_]
      intro hc
      apply h
      refine ⟨?_, ?_, ?_⟩ <;>
        [exact Int.ofNat.inj hc.1; exact Int.ofNat.inj hc.2.1;
         exact Int.ofNat.inj hc.2.2]
  unfold cnt
  show ∑ x ∈ Finset.range c.sx,
    sliceSum (setCell c (Int.ofNat px, Int.ofNat py, Int.ofNat pz)) x = _
  apply sum_range_update c.sx (sliceSum c) _ px hx
  · intro x _ hxe
    unfold sliceSum
    apply Finset.sum_congr rfl
    intro y _
    apply Finset.sum_congr rfl
    intro z _
    rw [hcell x y z, if_neg (by tauto)]
  · unfold sliceSum
    apply sum_range_update c.sy _ _ py hy
    · intro y _ hye
      apply Finset.sum_congr rfl
      intro z _
      rw [hcell px y z, if_neg (by tauto)]
    · apply sum_range_update c.sz _ _ pz hz
      · intro z _ hze
        rw [hcell px py z, if_neg (by tauto)]
      · rw [hcell px py pz, if_pos ⟨rfl, rfl, rfl⟩, h0]
        rfl

/-! Crop idempotence machinery for claim C10. -/

/-- Every axis-0 slice of the grid holds a nonzero entry. -/
def fullAxis0 (g : Grid) : Prop := ∀ x < g.sx, sliceNZ g x = true

instance (g : Grid) : Decidable (fullAxis0 g) := by
  unfold fullAxis0
  exact inferInstance

/-- Every axis-aligned slice of the grid, along each of the three
axes, holds a nonzero entry. -/
def fullSlices (g : Grid) : Prop :=
  fullAxis0 g ∧ fullAxis0 (sw01 g) ∧ fullAxis0 (sw02 g)

instance (g : Grid) : Decidable (fullSlices g) := by
  unfold fullSlices
  exact inferInstance

theorem gridEq_refl (g : Grid) : gridEq g g :=
  ⟨rfl, rfl, rfl, fun _ _ _ _ _ _ => rfl⟩

theorem gridEq_symm {g h : Grid} (e : gridEq g h) : gridEq h g := by
  obtain ⟨e1, e2, e3, e4⟩ := e
  refine ⟨e1.symm, e2.symm, e3.symm, ?_⟩
  intro x hx y hy z hz
  exact (e4 x (e1 ▸ hx) y (e2 ▸ hy) z (e3 ▸ hz)).symm

theorem gridEq_trans {g h k : Grid} (e : gridEq g h) (f : gridEq h k) :
    gridEq g k := by
  obtain ⟨e1, e2, e3, e4⟩ := e
  obtain ⟨f1, f2, f3, f4⟩ := f
  refine ⟨e1.trans f1, e2.trans f2, e3.trans f3, ?_⟩
  intro x hx y hy z hz
  exact (e4 x hx y hy z hz).trans (f4 x (e1 ▸ hx) y (e2 ▸ hy) z (e3 ▸ hz))

theorem sw01_sw01 (g : Grid) : sw01 (sw01 g) = g := rfl

theorem sw02_sw02 (g : Grid) : sw02 (sw02 g) = g := rfl

theorem sliceNZ_congr {g h : Grid} (e : gridEq g h) (x : Nat) (hx : x < g.sx) :
    sliceNZ g x = sliceNZ h x := by
  obtain ⟨e1, e2, e3, e4⟩ := e
  cases hg : sliceNZ g x with
  | true =>
    obtain ⟨y, hy, z, hz, hne⟩ := (sliceNZ_eq_true_iff g x).mp hg
    exact ((sliceNZ_eq_true_iff h x).mpr
      ⟨y, e2 ▸ hy, z, e3 ▸ hz, by rw [← e4 x hx y hy z hz]; exact hne⟩).symm
  | false =>
    have hall := (sliceNZ_eq_false_iff g x).mp hg
    refine ((sliceNZ_eq_false_iff h x).mpr ?_).symm
    intro y hy z hz
    rw [← e4 x hx y (e2 ▸ hy) z (e3 ▸ hz)]
    exact hall y (e2 ▸ hy) z (e3 ▸ hz)

theorem kept_congr {g h : Grid} (e : gridEq g h) : kept g = kept h := by
  unfold kept
  rw [← e.1]
  apply List.filter_congr
  intro x hx
  exact sliceNZ_congr e x (List.mem_range.mp hx)

theorem filter0_congr {g h : Grid} (e : gridEq g h) :
    gridEq (filter0 g) (filter0 h) := by
  have hk := kept_congr e
  refine ⟨by show (kept g).length = (kept h).length; rw [hk], e.2.1, e.2.2.1, ?_⟩
  intro x hx y hy z hz
  show g.cell (Int.ofNat ((kept g).getD ((Int.ofNat x).toNat) 0)) _ _ =
    h.cell (Int.ofNat ((kept h).getD ((Int.ofNat x).toNat) 0)) _ _
  rw [← hk]
  have hxl : x < (kept g).length := hx
  have htn : (Int.ofNat x).toNat = x := rfl
  rw [htn]
  have hmem : (kept g).getD x 0 ∈ kept g := by
    rw [List.getD_eq_getElem _ _ hxl]
    exact List.getElem_mem hxl
  have hlt := (kept_mem_lt g hmem).1
  exact e.2.2.2 _ hlt y hy z hz

theorem sw01_congr {g h : Grid} (e : gridEq g h) : gridEq (sw01 g) (sw01 h) := by
  obtain ⟨e1, e2, e3, e4⟩ := e
  exact ⟨e2, e1, e3, fun x hx y hy z hz => e4 y hy x hx z hz⟩

theorem sw02_congr {g h : Grid} (e : gridEq g h) : gridEq (sw02 g) (sw02 h) := by
  obtain ⟨e1, e2, e3, e4⟩ := e
  exact ⟨e3, e2, e1, fun x hx y hy z hz => e4 z hz y hy x hx⟩

theorem fullAxis0_filter0 (g : Grid) : fullAxis0 (filter0 g) := by
  intro x hx
  show sliceNZ g ((kept g).getD x 0) = true
  have hmem : (kept g).getD x 0 ∈ kept g := by
    rw [List.getD_eq_getElem _ _ hx]
    exact List.getElem_mem hx
  exact (kept_mem_lt g hmem).2

theorem filter0_full (g : Grid) (h : fullAxis0 g) : gridEq (filter0 g) g := by
  have hk : kept g = List.range g.sx := by
    apply List.filter_eq_self.mpr
    intro a ha
    exact h a (List.mem_range.mp ha)
  refine ⟨by show (kept g).length = g.sx; rw [hk]; simp, rfl, rfl, ?_⟩
  intro x hx y hy z hz
  show g.cell (Int.ofNat ((kept g).getD ((Int.ofNat x).toNat) 0)) _ _ = _
  have hxl : x < (kept g).length := hx
  have hxr : x < g.sx := by
    rw [hk] at hxl
    simpa using hxl
  rw [hk]
  rw [show (Int.ofNat x).toNat = x from rfl,
    List.getD_eq_getElem _ _ (by simpa using hxr), List.getElem_range]

theorem fullAxis0_sw01_filter0 {g : Grid} (h : fullAxis0 (sw01 g)) :
    fullAxis0 (sw01 (filter0 g)) := by
  intro y hy
  have hy' : y < g.sy := hy
  obtain ⟨b, hb, c, hc, hne⟩ := (sliceNZ_eq_true_iff (sw01 g) y).mp (h y hy')
  have hbs : sliceNZ g b = true :=
    (sliceNZ_eq_true_iff g b).mpr ⟨y, hy', c, hc, hne⟩
  have hmem : b ∈ kept g := by
    rw [kept, List.mem_filter, List.mem_range]
    exact ⟨hb, hbs⟩
  obtain ⟨i, hi, hgi⟩ := List.mem_iff_getElem.mp hmem
  apply (sliceNZ_eq_true_iff (sw01 (filter0 g)) y).mpr
  refine ⟨i, hi, c, hc, ?_⟩
  show g.cell (Int.ofNat ((kept g).getD ((Int.ofNat i).toNat) 0))
    (Int.ofNat y) (Int.ofNat c) ≠ 0
  rw [show (Int.ofNat i).toNat = i from rfl, List.getD_eq_getElem _ _ hi, hgi]
  exact hne

theorem fullAxis0_sw02_filter0 {g : Grid} (h : fullAxis0 (sw02 g)) :
    fullAxis0 (sw02 (filter0 g)) := by
  intro w hw
  have hw' : w < g.sz := hw
  obtain ⟨b, hb, c, hc, hne⟩ := (sliceNZ_eq_true_iff (sw02 g) w).mp (h w hw')
  have hcs : sliceNZ g c = true :=
    (sliceNZ_eq_true_iff g c).mpr ⟨b, hb, w, hw', hne⟩
  have hmem : c ∈ kept g := by
    rw [kept, List.mem_filter, List.mem_range]
    exact ⟨hc, hcs⟩
  obtain ⟨i, hi, hgi⟩ := List.mem_iff_getElem.mp hmem
  apply (sliceNZ_eq_true_iff (sw02 (filter0 g)) w).mpr
  refine ⟨b, hb, i, hi, ?_⟩
  show g.cell (Int.ofNat ((kept g).getD ((Int.ofNat i).toNat) 0))
    (Int.ofNat b) (Int.ofNat w) ≠ 0
  rw [show (Int.ofNat i).toNat = i from rfl, List.getD_eq_getElem _ _ hi, hgi]
  exact hne

theorem fullAxis0_sw01_sw02 (W : Grid) :
    fullAxis0 (sw01 (sw02 W)) ↔ fullAxis0 (sw01 W) := by
  constructor <;> intro h y hy
  · obtain ⟨b, hb, c, hc, hne⟩ :=
      (sliceNZ_eq_true_iff (sw01 (sw02 W)) y).mp (h y hy)
    exact (sliceNZ_eq_true_iff (sw01 W) y).mpr ⟨c, hc, b, hb, hne⟩
  · obtain ⟨b, hb, c, hc, hne⟩ :=
      (sliceNZ_eq_true_iff (sw01 W) y).mp (h y hy)
    exact (sliceNZ_eq_true_iff (sw01 (sw02 W)) y).mpr ⟨c, hc, b, hb, hne⟩

theorem fullSlices_crop (g : Grid) : fullSlices (crop_cube g) := by
  unfold crop_cube
  refine ⟨?_, ?_, ?_⟩
  · have h1 : fullAxis0 (sw01 (filter0 (sw01 (filter0 g)))) := by
      apply fullAxis0_sw01_filter0
      rw [sw01_sw01]
      exact fullAxis0_filter0 g
    have h2 : fullAxis0 (sw02 (filter0 (sw02 (sw01 (filter0 (sw01
        (filter0 g))))))) := by
      apply fullAxis0_sw02_filter0
      rw [sw02_sw02]
      exact h1
    exact h2
  · have h1 : fullAxis0 (sw01 (filter0 (sw01 (filter0 g)))) := by
      apply fullAxis0_sw01_filter0
      rw [sw01_sw01]
      exact fullAxis0_filter0 g
    rw [fullAxis0_sw01_sw02]
    apply fullAxis0_sw01_filter0
    rw [fullAxis0_sw01_sw02, sw01_sw01]
    exact fullAxis0_filter0 _
  · rw [sw02_sw02]
    exact fullAxis0_filter0 _

theorem crop_fixed (h : Grid) (hf : fullSlices h) : gridEq (crop_cube h) h := by
  obtain ⟨h0, h1, h2⟩ := hf
  unfold crop_cube
  have e0 : gridEq (filter0 h) h := filter0_full h h0
  have e1 : gridEq (sw01 (filter0 (sw01 (filter0 h)))) h := by
    have ha : gridEq (sw01 (filter0 h)) (sw01 h) := sw01_congr e0
    have hb : gridEq (filter0 (sw01 (filter0 h))) (filter0 (sw01 h)) :=
      filter0_congr ha
    have hcg : gridEq (filter0 (sw01 h)) (sw01 h) := filter0_full _ h1
    have hd : gridEq (sw01 (filter0 (sw01 (filter0 h)))) (sw01 (sw01 h)) :=
      sw01_congr (gridEq_trans hb hcg)
    rw [sw01_sw01] at hd
    exact hd
  have e2 : gridEq (sw02 (filter0 (sw02 (sw01 (filter0 (sw01
      (filter0 h))))))) h := by
    have ha : gridEq (sw02 (sw01 (filter0 (sw01 (filter0 h))))) (sw02 h) :=
      sw02_congr e1
    have hb : gridEq (filter0 (sw02 (sw01 (filter0 (sw01 (filter0 h))))))
        (filter0 (sw02 h)) := filter0_congr ha
    have hcg : gridEq (filter0 (sw02 h)) (sw02 h) := filter0_full _ h2
    have hd := sw02_congr (gridEq_trans hb hcg)
    rw [sw02_sw02] at hd
    exact hd
  exact e2

theorem fullAxis0_congr {g h : Grid} (e : gridEq g h) (hf : fullAxis0 g) :
    fullAxis0 h := by
  intro x hx
  have hx' : x < g.sx := by
    rw [e.1]
    exact hx
  rw [← sliceNZ_congr e x hx']
  exact hf x hx'

theorem fullSlices_congr {g h : Grid} (e : gridEq g h) (hf : fullSlices g) :
    fullSlices h :=
  ⟨fullAxis0_congr e hf.1,
   fullAxis0_congr (sw01_congr e) hf.2.1,
   fullAxis0_congr (sw02_congr e) hf.2.2⟩

/-- Face of the grid at a fixed axis-0 index holds a nonzero entry. -/
def faceNZx (g : Grid) (x : Nat) : Prop :=
  ∃ y < g.sy, ∃ z < g.sz,
    g.cell (Int.ofNat x) (Int.ofNat y) (Int.ofNat z) ≠ 0

/-- Face of the grid at a fixed axis-1 index holds a nonzero entry. -/
def faceNZy (g : Grid) (y : Nat) : Prop :=
  ∃ x < g.sx, ∃ z < g.sz,
    g.cell (Int.ofNat x) (Int.ofNat y) (Int.ofNat z) ≠ 0

/-- Face of the grid at a fixed axis-2 index holds a nonzero entry. -/
def faceNZz (g : Grid) (z : Nat) : Prop :=
  ∃ x < g.sx, ∃ y < g.sy,
    g.cell (Int.ofNat x) (Int.ofNat y) (Int.ofNat z) ≠ 0

/-- Each of the six boundary faces of the grid holds a nonzero entry
(the cropping invariant of the specification). -/
def boundaryFacesNZ (g : Grid) : Prop :=
  faceNZx g 0 ∧ faceNZx g (g.sx - 1) ∧ faceNZy g 0 ∧ faceNZy g (g.sy - 1) ∧
  faceNZz g 0 ∧ faceNZz g (g.sz - 1)

instance (g : Grid) (x : Nat) : Decidable (faceNZx g x) := by
  unfold faceNZx
  exact inferInstance

instance (g : Grid) (y : Nat) : Decidable (faceNZy g y) := by
  unfold faceNZy
  exact inferInstance

instance (g : Grid) (z : Nat) : Decidable (faceNZz g z) := by
  unfold faceNZz
  exact inferInstance

instance (g : Grid) : Decidable (boundaryFacesNZ g) := by
  unfold boundaryFacesNZ
  exact inferInstance

/-- Grid of shape 3 1 1 with an empty middle slice: cells at x = 0 and
x = 2 only. -/
def gGap : Grid := ⟨3, 1, 1, fun x _ _ => if x = 1 then 0 else 1⟩

/-- C10 counterexample: gGap has a nonzero cell on each of its six
boundary faces, yet crop_cube changes it (the implementation drops the
empty interior slice as well), so the boundary-face condition in the
claim does not characterise the grids fixed by crop_cube. -/
theorem crop_boundary_cex :
    boundaryFacesNZ gGap ∧ ¬ gridEq (crop_cube gGap) gGap := by
  constructor
  · decide
  · decide

/-- C10 (amended): crop_cube is idempotent and preserves the number of
nonzero cells; a grid is returned unchanged exactly when every
axis-aligned slice (not merely every boundary face) holds a nonzero
cell. -/
theorem crop_cube_props (g : Grid) :
    gridEq (crop_cube (crop_cube g)) (crop_cube g) ∧
    (gridEq (crop_cube g) g ↔ fullSlices g) ∧
    cnt (crop_cube g) = cnt g :=
  ⟨crop_fixed (crop_cube g) (fullSlices_crop g),
   ⟨fun he => fullSlices_congr he (fullSlices_crop g),
    fun hf => crop_fixed g hf⟩,
   cnt_crop g⟩

/-- Witness for crop_cube_props at the L-tromino: both directions of
the fixed-point characterisation are exercised (fullSlices gL holds by
decide, and the forward direction recovers it from the equality). -/
theorem crop_cube_props_witness :
    gridEq (crop_cube (crop_cube gL)) (crop_cube gL) ∧
    gridEq (crop_cube gL) gL ∧
    fullSlices gL ∧
    cnt (crop_cube gL) = cnt gL :=
  ⟨(crop_cube_props gL).1,
   ((crop_cube_props gL).2.1).mpr (by decide),
   ((crop_cube_props gL).2.1).mp (((crop_cube_props gL).2.1).mpr (by decide)),
   (crop_cube_props gL).2.2⟩

/-! Face connectivity machinery for claim C8. -/

/-- A coordinate triple holding a nonzero in-bounds cell of the grid. -/
def filledP (g : Grid) (p : Int × Int × Int) : Prop :=
  inBounds g p.1 p.2.1 p.2.2 ∧ g.cell p.1 p.2.1 p.2.2 ≠ 0

/-- Two coordinate triples differing by exactly one unit along exactly
one axis. -/
def AdjP (p q : Int × Int × Int) : Prop :=
  (p.1 - q.1).natAbs + (p.2.1 - q.2.1).natAbs + (p.2.2 - q.2.2).natAbs = 1

/-- Reachability inside the grid: a walk along face-adjacent filled
cells. -/
inductive ReachG (g : Grid) (p : Int × Int × Int) :
    Int × Int × Int → Prop where
  | refl : ReachG g p p
  | step {q r : Int × Int × Int} : ReachG g p q → filledP g r → AdjP q r →
      ReachG g p r

/-- Face-connectedness: every two filled cells are joined by a walk of
face-adjacent filled cells. -/
def ConnectedG (g : Grid) : Prop :=
  ∀ p q, filledP g p → filledP g q → ReachG g p q

theorem AdjP_symm {p q : Int × Int × Int} (h : AdjP p q) : AdjP q p := by
  unfold AdjP at *
  omega

theorem reach_filled {g : Grid} {p q : Int × Int × Int}
    (h : ReachG g p q) (hp : filledP g p) : filledP g q := by
  induction h with
  | refl => exact hp
  | step _ hf _ _ => exact hf

theorem reach_trans {g : Grid} {p q r : Int × Int × Int}
    (h1 : ReachG g p q) (h2 : ReachG g q r) : ReachG g p r := by
  induction h2 with
  | refl => exact h1
  | step _ hf ha ih => exact ReachG.step ih hf ha

theorem connected_transport {g h : Grid}
    (φ : Int × Int × Int → Int × Int × Int)
    (hf : ∀ p, filledP g p → filledP h (φ p))
    (hsurj : ∀ q, filledP h q → ∃ p, filledP g p ∧ φ p = q)
    (hadj : ∀ p q, filledP g p → filledP g q → AdjP p q → AdjP (φ p) (φ q))
    (hc : ConnectedG g) : ConnectedG h := by
  have hmap : ∀ p q, filledP g p → ReachG g p q → ReachG h (φ p) (φ q) := by
    intro p q hp hr
    induction hr with
    | refl => exact ReachG.refl
    | step hr1 hfil hadj1 ih =>
      exact ReachG.step ih (hf _ hfil)
        (hadj _ _ (reach_filled hr1 hp) hfil hadj1)
  intro a b ha hb
  obtain ⟨p, hp, rfl⟩ := hsurj a ha
  obtain ⟨q, hq, rfl⟩ := hsurj b hb
  exact hmap p q hp (hc p q hp hq)

theorem connectedG_padg {g : Grid} (hc : ConnectedG g) :
    ConnectedG (padg g) := by
  apply connected_transport (fun p => (p.1 + 1, p.2.1 + 1, p.2.2 + 1))
    ?_ ?_ ?_ hc
  · rintro ⟨x, y, z⟩ ⟨hin, hne⟩
    dsimp only at hin hne
    obtain ⟨b1, b2, b3, b4, b5, b6⟩ := hin
    have hcond : (1 : Int) ≤ x + 1 ∧ x + 1 ≤ g.sx ∧ 1 ≤ y + 1 ∧
        y + 1 ≤ g.sy ∧ 1 ≤ z + 1 ∧ z + 1 ≤ g.sz := by omega
    constructor
    · show (0 : Int) ≤ x + 1 ∧ x + 1 < (g.sx + 2 : Nat) ∧ (0 : Int) ≤ y + 1 ∧
        y + 1 < (g.sy + 2 : Nat) ∧ (0 : Int) ≤ z + 1 ∧ z + 1 < (g.sz + 2 : Nat)
      push_cast
      omega
    · show (if 1 ≤ x + 1 ∧ x + 1 ≤ g.sx ∧ 1 ≤ y + 1 ∧ y + 1 ≤ g.sy ∧
          1 ≤ z + 1 ∧ z + 1 ≤ g.sz then
        g.cell (x + 1 - 1) (y + 1 - 1) (z + 1 - 1) else 0) ≠ 0
      rw [if_pos hcond, show (x + 1 - 1 : Int) = x by ring,
        show (y + 1 - 1 : Int) = y by ring, show (z + 1 - 1 : Int) = z by ring]
      exact hne
  · rintro ⟨x, y, z⟩ ⟨hin, hne⟩
    dsimp only at hin hne
    have hcond : (1 : Int) ≤ x ∧ x ≤ g.sx ∧ 1 ≤ y ∧ y ≤ g.sy ∧ 1 ≤ z ∧
        z ≤ g.sz := by
      by_contra hcnot
      apply hne
      show (if 1 ≤ x ∧ x ≤ g.sx ∧ 1 ≤ y ∧ y ≤ g.sy ∧ 1 ≤ z ∧ z ≤ g.sz then
        g.cell (x - 1) (y - 1) (z - 1) else 0) = 0
      rw [if_neg hcnot]
    refine ⟨(x - 1, y - 1, z - 1), ⟨?_, ?_⟩, ?_⟩
    · show (0 : Int) ≤ x - 1 ∧ x - 1 < g.sx ∧ (0 : Int) ≤ y - 1 ∧
        y - 1 < g.sy ∧ (0 : Int) ≤ z - 1 ∧ z - 1 < g.sz
      omega
    · show g.cell (x - 1) (y - 1) (z - 1) ≠ 0
      intro hzero
      apply hne
      show (if 1 ≤ x ∧ x ≤ g.sx ∧ 1 ≤ y ∧ y ≤ g.sy ∧ 1 ≤ z ∧ z ≤ g.sz then
        g.cell (x - 1) (y - 1) (z - 1) else 0) = 0
      rw [if_pos hcond, hzero]
    · show (x - 1 + 1, y - 1 + 1, z - 1 + 1) = ((x, y, z) : Int × Int × Int)
      refine Prod.ext ?_ (Prod.ext ?_ ?_) <;> simp <;> ring
  · rintro ⟨x, y, z⟩ ⟨a, b, c⟩ _ _ hadj
    unfold AdjP at *
    dsimp only at hadj ⊢
    omega

theorem connectedG_sw01 {g : Grid} (hc : ConnectedG g) :
    ConnectedG (sw01 g) := by
  apply connected_transport (fun p => (p.2.1, p.1, p.2.2)) ?_ ?_ ?_ hc
  · rintro ⟨x, y, z⟩ ⟨hin, hne⟩
    dsimp only at hin hne ⊢
    obtain ⟨b1, b2, b3, b4, b5, b6⟩ := hin
    exact ⟨⟨b3, b4, b1, b2, b5, b6⟩, hne⟩
  · rintro ⟨x, y, z⟩ ⟨hin, hne⟩
    dsimp only at hin hne
    obtain ⟨b1, b2, b3, b4, b5, b6⟩ := hin
    exact ⟨(y, x, z), ⟨⟨b3, b4, b1, b2, b5, b6⟩, hne⟩, rfl⟩
  · rintro ⟨x, y, z⟩ ⟨a, b, c⟩ _ _ hadj
    unfold AdjP at *
    dsimp only at hadj ⊢
    omega

theorem connectedG_sw02 {g : Grid} (hc : ConnectedG g) :
    ConnectedG (sw02 g) := by
  apply connected_transport (fun p => (p.2.2, p.2.1, p.1)) ?_ ?_ ?_ hc
  · rintro ⟨x, y, z⟩ ⟨hin, hne⟩
    dsimp only at hin hne ⊢
    obtain ⟨b1, b2, b3, b4, b5, b6⟩ := hin
    exact ⟨⟨b5, b6, b3, b4, b1, b2⟩, hne⟩
  · rintro ⟨x, y, z⟩ ⟨hin, hne⟩
    dsimp only at hin hne
    obtain ⟨b1, b2, b3, b4, b5, b6⟩ := hin
    exact ⟨(z, y, x), ⟨⟨b5, b6, b3, b4, b1, b2⟩, hne⟩, rfl⟩
  · rintro ⟨x, y, z⟩ ⟨a, b, c⟩ _ _ hadj
    unfold AdjP at *
    dsimp only at hadj ⊢
    omega

theorem connectedG_rot12 {g : Grid} (hc : ConnectedG g) :
    ConnectedG (rot12 g) := by
  apply connected_transport (fun p => (p.1, (g.sz : Int) - 1 - p.2.2, p.2.1))
    ?_ ?_ ?_ hc
  · rintro ⟨x, y, z⟩ ⟨hin, hne⟩
    dsimp only at hin hne
    obtain ⟨b1, b2, b3, b4, b5, b6⟩ := hin
    show filledP (rot12 g) (x, (g.sz : Int) - 1 - z, y)
    unfold filledP inBounds rot12
    dsimp only
    refine ⟨⟨b1, b2, by omega, by omega, b3, b4⟩, ?_⟩
    rw [show (g.sz : Int) - 1 - ((g.sz : Int) - 1 - z) = z by ring]
    exact hne
  · rintro ⟨x, y, z⟩ ⟨hin, hne⟩
    dsimp only at hin hne
    obtain ⟨b1, b2, b3, b4, b5, b6⟩ := hin
    have c1 : (0 : Int) ≤ x := b1
    have c2 : x < (g.sx : Int) := b2
    have c3 : (0 : Int) ≤ y := b3
    have c4 : y < (g.sz : Int) := b4
    have c5 : (0 : Int) ≤ z := b5
    have c6 : z < (g.sy : Int) := b6
    refine ⟨(x, z, (g.sz : Int) - 1 - y), ?_, ?_⟩
    · show filledP g (x, z, (g.sz : Int) - 1 - y)
      unfold filledP inBounds
      dsimp only
      exact ⟨⟨c1, c2, c5, c6, by omega, by omega⟩, hne⟩
    · dsimp only
      refine Prod.ext rfl (Prod.ext ?_ rfl)
      show (g.sz : Int) - 1 - ((g.sz : Int) - 1 - y) = y
      ring
  · rintro ⟨x, y, z⟩ ⟨a, b, c⟩ _ _ hadj
    unfold AdjP at *
    dsimp only at hadj ⊢
    omega

theorem connectedG_rot02 {g : Grid} (hc : ConnectedG g) :
    ConnectedG (rot02 g) := by
  apply connected_transport (fun p => ((g.sz : Int) - 1 - p.2.2, p.2.1, p.1))
    ?_ ?_ ?_ hc
  · rintro ⟨x, y, z⟩ ⟨hin, hne⟩
    dsimp only at hin hne
    obtain ⟨b1, b2, b3, b4, b5, b6⟩ := hin
    show filledP (rot02 g) ((g.sz : Int) - 1 - z, y, x)
    unfold filledP inBounds rot02
    dsimp only
    refine ⟨⟨by omega, by omega, b3, b4, b1, b2⟩, ?_⟩
    rw [show (g.sz : Int) - 1 - ((g.sz : Int) - 1 - z) = z by ring]
    exact hne
  · rintro ⟨x, y, z⟩ ⟨hin, hne⟩
    dsimp only at hin hne
    obtain ⟨b1, b2, b3, b4, b5, b6⟩ := hin
    have c1 : (0 : Int) ≤ x := b1
    have c2 : x < (g.sz : Int) := b2
    have c3 : (0 : Int) ≤ y := b3
    have c4 : y < (g.sy : Int) := b4
    have c5 : (0 : Int) ≤ z := b5
    have c6 : z < (g.sx : Int) := b6
    refine ⟨(z, y, (g.sz : Int) - 1 - x), ?_, ?_⟩
    · show filledP g (z, y, (g.sz : Int) - 1 - x)
      unfold filledP inBounds
      dsimp only
      exact ⟨⟨c5, c6, c3, c4, by omega, by omega⟩, hne⟩
    · dsimp only
      refine Prod.ext ?_ (Prod.ext rfl rfl)
      show (g.sz : Int) - 1 - ((g.sz : Int) - 1 - x) = x
      ring
  · rintro ⟨x, y, z⟩ ⟨a, b, c⟩ _ _ hadj
    unfold AdjP at *
    dsimp only at hadj ⊢
    omega

theorem connectedG_rot01 {g : Grid} (hc : ConnectedG g) :
    ConnectedG (rot01 g) := by
  apply connected_transport (fun p => ((g.sy : Int) - 1 - p.2.1, p.1, p.2.2))
    ?_ ?_ ?_ hc
  · rintro ⟨x, y, z⟩ ⟨hin, hne⟩
    dsimp only at hin hne
    obtain ⟨b1, b2, b3, b4, b5, b6⟩ := hin
    show filledP (rot01 g) ((g.sy : Int) - 1 - y, x, z)
    unfold filledP inBounds rot01
    dsimp only
    refine ⟨⟨by omega, by omega, b1, b2, b5, b6⟩, ?_⟩
    rw [show (g.sy : Int) - 1 - ((g.sy : Int) - 1 - y) = y by ring]
    exact hne
  · rintro ⟨x, y, z⟩ ⟨hin, hne⟩
    dsimp only at hin hne
    obtain ⟨b1, b2, b3, b4, b5, b6⟩ := hin
    have c1 : (0 : Int) ≤ x := b1
    have c2 : x < (g.sy : Int) := b2
    have c3 : (0 : Int) ≤ y := b3
    have c4 : y < (g.sx : Int) := b4
    have c5 : (0 : Int) ≤ z := b5
    have c6 : z < (g.sz : Int) := b6
    refine ⟨(y, (g.sy : Int) - 1 - x, z), ?_, ?_⟩
    · show filledP g (y, (g.sy : Int) - 1 - x, z)
      unfold filledP inBounds
      dsimp only
      exact ⟨⟨c3, c4, by omega, by omega, c5, c6⟩, hne⟩
    · dsimp only
      refine Prod.ext ?_ (Prod.ext rfl rfl)
      show (g.sy : Int) - 1 - ((g.sy : Int) - 1 - x) = x
      ring
  · rintro ⟨x, y, z⟩ ⟨a, b, c⟩ _ _ hadj
    unfold AdjP at *
    dsimp only at hadj ⊢
    omega

theorem connectedG_fix_axis {g : Grid} (hc : ConnectedG g) :
    ConnectedG (fix_axis g) := by
  unfold fix_axis
  split_ifs <;>
    first
    | exact hc
    | exact connectedG_rot02 hc
    | exact connectedG_rot12 hc
    | exact connectedG_rot01 hc
    | exact connectedG_rot12 (connectedG_rot01 hc)
    | exact connectedG_rot01 (connectedG_rot12 hc)

theorem sorted_indexOf_succ {l : List Nat} (hs : List.Sorted (· < ·) l)
    (a : Nat) (ha : a ∈ l) (hb : a + 1 ∈ l) :
    l.indexOf (a + 1) = l.indexOf a + 1 := by
  have hi : l.indexOf a < l.length := List.indexOf_lt_length.mpr ha
  have hj : l.indexOf (a + 1) < l.length := List.indexOf_lt_length.mpr hb
  have hgi : l[l.indexOf a] = a := List.getElem_indexOf hi
  have hgj : l[l.indexOf (a + 1)] = a + 1 := List.getElem_indexOf hj
  have hmono := hs.get_strictMono
  set i := l.indexOf a with hidef
  set j := l.indexOf (a + 1) with hjdef
  have hij : i < j := by
    rcases Nat.lt_trichotomy i j with h | h | h
    · exact h
    · exfalso
      have heq : l[i] = l[j] := by
        congr 1
      rw [hgi, hgj] at heq
      omega
    · exfalso
      have hlt := hmono (show (⟨j, hj⟩ : Fin l.length) < ⟨i, hi⟩ from h)
      rw [List.get_eq_getElem, List.get_eq_getElem] at hlt
      rw [hgi, hgj] at hlt
      omega
  rcases Nat.lt_trichotomy j (i + 1) with h | h | h
  · omega
  · omega
  · exfalso
    have hi1 : i + 1 < l.length := by omega
    have h1 := hmono (show (⟨i, hi⟩ : Fin l.length) < ⟨i + 1, hi1⟩ from
      Fin.mk_lt_mk.mpr (by omega))
    have h2 := hmono (show (⟨i + 1, hi1⟩ : Fin l.length) < ⟨j, hj⟩ from
      Fin.mk_lt_mk.mpr (by omega))
    rw [List.get_eq_getElem, List.get_eq_getElem] at h1 h2
    rw [hgi] at h1
    rw [hgj] at h2
    omega

theorem kept_sorted (g : Grid) : List.Sorted (· < ·) (kept g) :=
  List.Sorted.filter _ (List.sorted_lt_range g.sx)

theorem kept_nodup (g : Grid) : (kept g).Nodup :=
  List.Nodup.filter _ (List.nodup_range g.sx)

theorem filled_mem_kept {g : Grid} {x y z : Int} (hin : inBounds g x y z)
    (hne : g.cell x y z ≠ 0) : x.toNat ∈ kept g := by
  obtain ⟨b1, b2, b3, b4, b5, b6⟩ := hin
  have hxt : Int.ofNat x.toNat = x := by
    simp only [Int.ofNat_eq_natCast]
    omega
  have hys : sliceNZ g x.toNat = true := by
    apply (sliceNZ_eq_true_iff g x.toNat).mpr
    refine ⟨y.toNat, by omega, z.toNat, by omega, ?_⟩
    rw [hxt, show Int.ofNat y.toNat = y by simp only [Int.ofNat_eq_natCast]; omega,
      show Int.ofNat z.toNat = z by simp only [Int.ofNat_eq_natCast]; omega]
    exact hne
  rw [kept, List.mem_filter, List.mem_range]
  exact ⟨by omega, hys⟩

theorem connectedG_filter0 {g : Grid} (hc : ConnectedG g) :
    ConnectedG (filter0 g) := by
  apply connected_transport
    (fun p => (Int.ofNat ((kept g).indexOf p.1.toNat), p.2.1, p.2.2)) ?_ ?_ ?_ hc
  · rintro ⟨x, y, z⟩ ⟨hin, hne⟩
    dsimp only at hin hne
    have hmem := filled_mem_kept hin hne
    obtain ⟨b1, b2, b3, b4, b5, b6⟩ := hin
    have hxt : Int.ofNat x.toNat = x := by
      simp only [Int.ofNat_eq_natCast]
      omega
    have hidx : (kept g).indexOf x.toNat < (kept g).length :=
      List.indexOf_lt_length.mpr hmem
    have hgidx : (kept g)[(kept g).indexOf x.toNat] = x.toNat :=
      List.getElem_indexOf hidx
    show filledP (filter0 g) (Int.ofNat ((kept g).indexOf x.toNat), y, z)
    unfold filledP inBounds filter0
    dsimp only
    refine ⟨⟨by simp [Int.ofNat_eq_natCast],
      by simp only [Int.ofNat_eq_natCast]; exact_mod_cast hidx,
      b3, b4, b5, b6⟩, ?_⟩
    show g.cell (Int.ofNat ((kept g).getD
      ((Int.ofNat ((kept g).indexOf x.toNat)).toNat) 0)) y z ≠ 0
    rw [show (Int.ofNat ((kept g).indexOf x.toNat)).toNat =
        (kept g).indexOf x.toNat from rfl,
      List.getD_eq_getElem _ _ hidx, hgidx, hxt]
    exact hne
  · rintro ⟨x, y, z⟩ ⟨hin, hne⟩
    dsimp only at hin hne
    obtain ⟨b1, b2, b3, b4, b5, b6⟩ := hin
    have hxl : x.toNat < (kept g).length := by
      have hb2 : x < ((kept g).length : Int) := b2
      omega
    have hvmem : (kept g)[x.toNat] ∈ kept g := List.getElem_mem hxl
    have hvlt := (kept_mem_lt g hvmem).1
    have hcell : (filter0 g).cell x y z =
        g.cell (Int.ofNat ((kept g)[x.toNat])) y z := by
      show g.cell (Int.ofNat ((kept g).getD x.toNat 0)) y z = _
      rw [List.getD_eq_getElem _ _ hxl]
    refine ⟨(Int.ofNat ((kept g)[x.toNat]), y, z), ?_, ?_⟩
    · unfold filledP inBounds
      dsimp only
      refine ⟨⟨by simp [Int.ofNat_eq_natCast],
        by simp only [Int.ofNat_eq_natCast]; exact_mod_cast hvlt,
        b3, b4, b5, b6⟩, ?_⟩
      rw [← hcell]
      exact hne
    · dsimp only
      refine Prod.ext ?_ rfl
      show Int.ofNat ((kept g).indexOf ((Int.ofNat ((kept g)[x.toNat])).toNat)) = x
      rw [show (Int.ofNat ((kept g)[x.toNat])).toNat = (kept g)[x.toNat] from rfl,
        List.indexOf_getElem (kept_nodup g) x.toNat hxl]
      simp only [Int.ofNat_eq_natCast]
      omega
  · rintro ⟨x, y, z⟩ ⟨a, b, c⟩ hp hq hadj
    have hm1 := filled_mem_kept hp.1 hp.2
    have hm2 := filled_mem_kept hq.1 hq.2
    obtain ⟨⟨p1, p2, p3, p4, p5, p6⟩, pne⟩ := hp
    obtain ⟨⟨q1, q2, q3, q4, q5, q6⟩, qne⟩ := hq
    dsimp only at *
    unfold AdjP at hadj ⊢
    dsimp only at hadj ⊢
    rcases (by omega : x = a ∨ ((x - a).natAbs = 1 ∧ y = b ∧ z = c))
      with heq | ⟨hd, hy, hz⟩
    · rw [heq] at hadj ⊢
      simp only [Int.ofNat_eq_natCast]
      omega
    · rcases (by omega : x = a + 1 ∨ a = x + 1) with hxa | hxa
      · have ht : x.toNat = a.toNat + 1 := by omega
        have hidxeq : (kept g).indexOf (a.toNat + 1) =
            (kept g).indexOf a.toNat + 1 :=
          sorted_indexOf_succ (kept_sorted g) a.toNat hm2 (ht ▸ hm1)
        rw [ht]
        simp only [Int.ofNat_eq_natCast]
        omega
      · have ht : a.toNat = x.toNat + 1 := by omega
        have hidxeq : (kept g).indexOf (x.toNat + 1) =
            (kept g).indexOf x.toNat + 1 :=
          sorted_indexOf_succ (kept_sorted g) x.toNat hm1 (ht ▸ hm2)
        rw [ht]
        simp only [Int.ofNat_eq_natCast]
        omega

theorem connectedG_crop {g : Grid} (hc : ConnectedG g) :
    ConnectedG (crop_cube g) := by
  unfold crop_cube
  exact connectedG_sw02 (connectedG_filter0 (connectedG_sw02 (connectedG_sw01
    (connectedG_filter0 (connectedG_sw01 (connectedG_filter0 hc))))))

theorem filledP_setCell {c : Grid} {p : Int × Int × Int}
    (hin : inBounds c p.1 p.2.1 p.2.2) (q : Int × Int × Int) :
    filledP (setCell c p) q ↔ q = p ∨ filledP c q := by
  unfold filledP setCell inBounds at *
  dsimp only
  constructor
  · rintro ⟨hb, hne⟩
    by_cases hq : q.1 = p.1 ∧ q.2.1 = p.2.1 ∧ q.2.2 = p.2.2
    · left
      obtain ⟨e1, e2, e3⟩ := hq
      exact Prod.ext e1 (Prod.ext e2 e3)
    · right
      rw [if_neg hq] at hne
      exact ⟨hb, hne⟩
  · rintro (rfl | ⟨hb, hne⟩)
    · exact ⟨hin, by rw [if_pos ⟨rfl, rfl, rfl⟩]; omega⟩
    · refine ⟨hb, ?_⟩
      by_cases hq : q.1 = p.1 ∧ q.2.1 = p.2.1 ∧ q.2.2 = p.2.2
      · rw [if_pos hq]
        omega
      · rw [if_neg hq]
        exact hne

theorem reach_setCell {c : Grid} {p a b : Int × Int × Int}
    (hin : inBounds c p.1 p.2.1 p.2.2)
    (h : ReachG c a b) : ReachG (setCell c p) a b := by
  induction h with
  | refl => exact ReachG.refl
  | step _ hf ha ih =>
    exact ReachG.step ih ((filledP_setCell hin _).mpr (Or.inr hf)) ha

theorem connectedG_setCell {c : Grid} {p : Int × Int × Int}
    (hin : inBounds c p.1 p.2.1 p.2.2)
    (hnbr : ∃ n, filledP c n ∧ AdjP p n) (hc : ConnectedG c) :
    ConnectedG (setCell c p) := by
  obtain ⟨n, hn, hpn⟩ := hnbr
  have hpfill : filledP (setCell c p) p := (filledP_setCell hin p).mpr (Or.inl rfl)
  have hnfill : filledP (setCell c p) n := (filledP_setCell hin n).mpr (Or.inr hn)
  have hreach_pn : ReachG (setCell c p) p n := ReachG.step ReachG.refl hnfill hpn
  have hreach_np : ReachG (setCell c p) n p :=
    ReachG.step ReachG.refl hpfill (AdjP_symm hpn)
  intro a b ha hb
  rcases (filledP_setCell hin a).mp ha with rfl | hao
  · rcases (filledP_setCell hin b).mp hb with rfl | hbo
    · exact ReachG.refl
    · exact reach_trans hreach_pn (reach_setCell hin (hc n b hn hbo))
  · rcases (filledP_setCell hin b).mp hb with rfl | hbo
    · exact reach_trans (reach_setCell hin (hc a n hao hn)) hreach_np
    · exact reach_setCell hin (hc a b hao hbo)

theorem zeroOne_padg {g : Grid} (h : zeroOne g) : zeroOne (padg g) := by
  intro x hx y hy z hz
  show (if 1 ≤ Int.ofNat x ∧ Int.ofNat x ≤ g.sx ∧ 1 ≤ Int.ofNat y ∧
      Int.ofNat y ≤ g.sy ∧ 1 ≤ Int.ofNat z ∧ Int.ofNat z ≤ g.sz then
    g.cell (Int.ofNat x - 1) (Int.ofNat y - 1) (Int.ofNat z - 1) else 0) = 0 ∨
    (if 1 ≤ Int.ofNat x ∧ Int.ofNat x ≤ g.sx ∧ 1 ≤ Int.ofNat y ∧
      Int.ofNat y ≤ g.sy ∧ 1 ≤ Int.ofNat z ∧ Int.ofNat z ≤ g.sz then
    g.cell (Int.ofNat x - 1) (Int.ofNat y - 1) (Int.ofNat z - 1) else 0) = 1
  by_cases hcond : 1 ≤ Int.ofNat x ∧ Int.ofNat x ≤ g.sx ∧ 1 ≤ Int.ofNat y ∧
      Int.ofNat y ≤ g.sy ∧ 1 ≤ Int.ofNat z ∧ Int.ofNat z ≤ g.sz
  · rw [if_pos hcond]
    obtain ⟨c1, c2, c3, c4, c5, c6⟩ := hcond
    simp only [Int.ofNat_eq_natCast] at c1 c2 c3 c4 c5 c6
    have e1 : Int.ofNat x - 1 = Int.ofNat (x - 1) := by
      simp only [Int.ofNat_eq_natCast]
      omega
    have e2 : Int.ofNat y - 1 = Int.ofNat (y - 1) := by
      simp only [Int.ofNat_eq_natCast]
      omega
    have e3 : Int.ofNat z - 1 = Int.ofNat (z - 1) := by
      simp only [Int.ofNat_eq_natCast]
      omega
    rw [e1, e2, e3]
    exact h (x - 1) (by omega) (y - 1) (by omega) (z - 1) (by omega)
  · rw [if_neg hcond]
    left
    rfl

theorem expPositions_mem {c out : Grid} {p : Int × Int × Int}
    (hp : p ∈ expPositions c out) :
    ∃ x y z : Nat, p = (Int.ofNat x, Int.ofNat y, Int.ofNat z) ∧
      x < c.sx ∧ y < c.sy ∧ z < c.sz ∧
      Nat.xor (out.cell (Int.ofNat x) (Int.ofNat y) (Int.ofNat z))
        (c.cell (Int.ofNat x) (Int.ofNat y) (Int.ofNat z)) ≠ 0 := by
  unfold expPositions at hp
  simp only [List.mem_flatMap, List.mem_filterMap, List.mem_range,
    Option.ite_none_right_eq_some, Option.some.injEq] at hp
  obtain ⟨x, hx, y, hy, z, hz, hcond, heq⟩ := hp
  exact ⟨x, y, z, heq.symm, hx, hy, hz, hcond⟩

theorem hasFilledNbr_exists {c : Grid} {x y z : Int}
    (h : hasFilledNbr c x y z = true) :
    ∃ n, filledP c n ∧ AdjP (x, y, z) n := by
  unfold hasFilledNbr at h
  rw [List.any_eq_true] at h
  obtain ⟨d, hd, hcond⟩ := h
  rw [Bool.and_eq_true, decide_eq_true_eq, bne_iff_ne] at hcond
  refine ⟨(x - d.1, y - d.2.1, z - d.2.2), ⟨hcond.1, hcond.2⟩, ?_⟩
  unfold nbhd at hd
  simp only [List.mem_cons, List.not_mem_nil, or_false] at hd
  unfold AdjP
  dsimp only
  rcases hd with rfl | rfl | rfl | rfl | rfl | rfl <;> dsimp only <;> omega

/-- C8: every grid yielded by expand_cube from a face-connected,
cropped, zero-one polycube with k cells is itself face-connected and
has exactly k plus one cells set. -/
theorem expand_cube_connected (P : Grid) (k : Nat) (hconn : ConnectedG P)
    (_hcrop : boundaryFacesNZ P) (h01 : zeroOne P) (hk : cnt P = k) :
    ∀ q ∈ expand_cube P, ConnectedG q ∧ cnt q = k + 1 := by
  intro q hq
  unfold expand_cube at hq
  obtain ⟨p, hp, rfl⟩ := List.mem_map.mp hq
  obtain ⟨x, y, z, rfl, hx, hy, hz, hxor⟩ := expPositions_mem hp
  have h01c : zeroOne (padg P) := zeroOne_padg h01
  have hne : (dilate (padg P)).cell (Int.ofNat x) (Int.ofNat y) (Int.ofNat z) ≠
      (padg P).cell (Int.ofNat x) (Int.ofNat y) (Int.ofNat z) := by
    intro he
    exact hxor (Nat.xor_eq_zero.mpr he)
  have hnbr : hasFilledNbr (padg P) (Int.ofNat x) (Int.ofNat y)
      (Int.ofNat z) = true := by
    by_contra hno
    apply hne
    show (if hasFilledNbr (padg P) (Int.ofNat x) (Int.ofNat y) (Int.ofNat z)
      then 1 else (padg P).cell (Int.ofNat x) (Int.ofNat y) (Int.ofNat z)) = _
    rw [if_neg hno]
  have hdil : (dilate (padg P)).cell (Int.ofNat x) (Int.ofNat y)
      (Int.ofNat z) = 1 := by
    show (if hasFilledNbr (padg P) (Int.ofNat x) (Int.ofNat y) (Int.ofNat z)
      then 1 else (padg P).cell (Int.ofNat x) (Int.ofNat y) (Int.ofNat z)) = 1
    rw [if_pos hnbr]
  have hcell0 : (padg P).cell (Int.ofNat x) (Int.ofNat y) (Int.ofNat z) = 0 := by
    rcases h01c x hx y hy z hz with h0 | h1
    · exact h0
    · exfalso
      apply hne
      rw [hdil, h1]
  have hinb : inBounds (padg P) (Int.ofNat x) (Int.ofNat y) (Int.ofNat z) := by
    unfold inBounds
    simp only [Int.ofNat_eq_natCast]
    omega
  have hnbrE : ∃ n, filledP (padg P) n ∧
      AdjP (Int.ofNat x, Int.ofNat y, Int.ofNat z) n :=
    hasFilledNbr_exists hnbr
  constructor
  · exact connectedG_fix_axis (connectedG_crop
      (connectedG_setCell hinb hnbrE (connectedG_padg hconn)))
  · rw [cnt_fix_axis, cnt_crop, cnt_setCell (padg P) x y z hx hy hz hcell0,
      cnt_padg, hk]

/-- Witness for expand_cube_connected at the single cube: both
expansion properties hold for the first yielded grid. -/
theorem expand_cube_connected_witness :
    ConnectedG ((expand_cube (ones 1 1 1)).get ⟨0, by decide⟩) ∧
    cnt ((expand_cube (ones 1 1 1)).get ⟨0, by decide⟩) = 1 + 1 := by
  have hconn : ConnectedG (ones 1 1 1) := by
    intro p q hp hq
    obtain ⟨⟨p1, p2, p3, p4, p5, p6⟩, _⟩ := hp
    obtain ⟨⟨q1, q2, q3, q4, q5, q6⟩, _⟩ := hq
    have a1 : (0 : Int) ≤ p.1 := p1
    have a2 : p.1 < (1 : Int) := p2
    have a3 : (0 : Int) ≤ p.2.1 := p3
    have a4 : p.2.1 < (1 : Int) := p4
    have a5 : (0 : Int) ≤ p.2.2 := p5
    have a6 : p.2.2 < (1 : Int) := p6
    have b1 : (0 : Int) ≤ q.1 := q1
    have b2 : q.1 < (1 : Int) := q2
    have b3 : (0 : Int) ≤ q.2.1 := q3
    have b4 : q.2.1 < (1 : Int) := q4
    have b5 : (0 : Int) ≤ q.2.2 := q5
    have b6 : q.2.2 < (1 : Int) := q6
    have hpq : p = q := by
      refine Prod.ext ?_ (Prod.ext ?_ ?_) <;> omega
    rw [hpq]
    exact ReachG.refl
  exact expand_cube_connected (ones 1 1 1) 1 hconn (by decide) (by decide)
    (by decide) _ (List.get_mem _ _ _)

/-- Counts of generate_polycubes for sizes one to four, matching the
first four values 1, 1, 2, 8 of A000162 (kernel-evaluated; larger
sizes are out of kernel reach). -/
theorem generate_counts_to_four :
    (generate_polycubes 1).map List.length = some 1 ∧
    (generate_polycubes 2).map List.length = some 1 ∧
    (generate_polycubes 3).map List.length = some 2 ∧
    (generate_polycubes 4).map List.length = some 8 := by
  refine ⟨rfl, rfl, rfl, rfl⟩
